import Mathlib

/-!
Verification of the AgentDB conversational SQL agent core: a shallow
embedding, in Lean 4, of the query safety classifier and executor
(`packages/core/src/agent/executor.ts`), the schema engine
(`packages/core/src/db/schema-engine.ts`), the streaming model client
(`packages/core/src/agent/llm.ts`), and the turn orchestration of the
terminal REPL (`packages/cli/src/chat/repl.ts`) and the WebSocket chat
handler (`packages/server/src/ws/chat-socket.ts`), together with proofs
and refutations of the specified properties.

Strings are modelled as `List Char` internally (with `String` at the
interfaces); the handful of JavaScript regular expressions used by the
source are hand-compiled into explicit scanners with the same matching
semantics (leftmost match, lazy or greedy quantifiers as in the source).
External library calls (the JSON parser, the HTTP transport, the SQL
driver) are modelled by their parsed results, passed in as inputs.
-/

namespace AgentDB

/-! ### Character utilities

`isSpaceChar` models the JavaScript `\s` class (restricted to the ASCII
whitespace that can occur in the data handled here), `isWordChar` the
JavaScript `\w` class used for the `\b` word boundary. -/

def isSpaceChar (c : Char) : Bool :=
  c == ' ' || c == '\t' || c == '\n' || c == '\r' || c == '\x0b' || c == '\x0c'

def isWordChar (c : Char) : Bool := c.isAlphanum || c == '_'

def upperChars (l : List Char) : List Char := l.map Char.toUpper

/-- Models `String.prototype.trim`. -/
def trimChars (l : List Char) : List Char :=
  ((l.dropWhile isSpaceChar).reverse.dropWhile isSpaceChar).reverse

/-! ### Comment stripping (executor.ts, `isDestructiveQuery`)

`stripLineComments` models the global multiline replacement of the
regex "dash dash, then `.*$`" by the empty string: on each line,
everything from the first `--` to the end of the line is removed (the
newline itself is kept).  `stripBlockComments` models
`.replace(/\/\*[\s\S]*?\*\//g, '')`: each `/*` is removed together with
everything up to the nearest following `*/`; a `/*` with no closing
`*/` is left in place (the regex does not match there). -/

mutual

def stripLineComments : List Char → List Char
  | '-' :: '-' :: rest => stripLineCommentsSkip rest
  | c :: rest => c :: stripLineComments rest
  | [] => []

def stripLineCommentsSkip : List Char → List Char
  | '\n' :: rest => '\n' :: stripLineComments rest
  | _ :: rest => stripLineCommentsSkip rest
  | [] => []

end

mutual

def stripBlockComments : List Char → List Char
  | '/' :: '*' :: rest => stripBlockCommentsInside rest rest
  | c :: rest => c :: stripBlockComments rest
  | [] => []

/-- Scanning for the closing `*/`; `orig` remembers the characters after
the opening `/*` so they can be restored if no `*/` exists (in which
case the rest of the input cannot contain a complete block comment
either, so it is emitted verbatim). -/
def stripBlockCommentsInside (orig : List Char) : List Char → List Char
  | '*' :: '/' :: rest => stripBlockComments rest
  | _ :: rest => stripBlockCommentsInside orig rest
  | [] => '/' :: '*' :: orig

end

/-- The `cleaned` value computed by `isDestructiveQuery`: strip `--`
line comments, strip `/* */` block comments, trim, uppercase. -/
def cleanedSQL (sql : String) : List Char :=
  upperChars (trimChars (stripBlockComments (stripLineComments sql.data)))

def DESTRUCTIVE_KEYWORDS : List (List Char) :=
  [("INSERT").data, ("UPDATE").data, ("DELETE").data, ("DROP").data,
   ("ALTER").data, ("TRUNCATE").data, ("CREATE").data]

/-- The `\b` word boundary after a keyword (all keywords end in a word
character, so the boundary holds iff the next character is not a word
character, or the string ends). -/
def wordBoundary : List Char → Bool
  | [] => true
  | c :: _ => !isWordChar c

/-- Match `\s*KW\b` at the head of `s` (the `\s*` is greedy; since every
keyword starts with a letter this equals skipping all leading
whitespace). -/
def kwMatchHere (kw s : List Char) : Bool :=
  kw.isPrefixOf (s.dropWhile isSpaceChar) &&
    wordBoundary ((s.dropWhile isSpaceChar).drop kw.length)

/-- Match `;\s*KW\b` anywhere in `s`. -/
def kwMatchAfterSemi (kw : List Char) : List Char → Bool
  | [] => false
  | c :: rest => (c == ';' && kwMatchHere kw rest) || kwMatchAfterSemi kw rest

/-- The test `new RegExp(`(^|;)\s*KW\b`).test(cleaned)`. -/
def regexTestDestructive (kw s : List Char) : Bool :=
  kwMatchHere kw s || kwMatchAfterSemi kw s

/-- `QueryExecutor.isDestructiveQuery` (executor.ts:125-140). -/
def QueryExecutor.isDestructiveQuery (sql : String) : Bool :=
  DESTRUCTIVE_KEYWORDS.any fun kw => regexTestDestructive kw (cleanedSQL sql)

def SQL_STARTERS : List (List Char) :=
  [("SELECT").data, ("INSERT").data, ("UPDATE").data, ("DELETE").data,
   ("CREATE").data, ("ALTER").data, ("DROP").data, ("TRUNCATE").data,
   ("WITH").data, ("EXPLAIN").data, ("BEGIN").data]

/-- `QueryExecutor.looksLikeSQL` (executor.ts:150-166). -/
def QueryExecutor.looksLikeSQL (text : List Char) : Bool :=
  SQL_STARTERS.any fun kw => kw.isPrefixOf (trimChars (upperChars text))

/-! ### Fenced-code-block matching (executor.ts, `extractSQL`)

Hand-compiled matchers for the code-fence regexes.  A match at a
position consists of the opening fence, for the tagged variant the tag
`sql` (case-insensitive), then `\s*\n` (greedy with backtracking: the
whitespace run must contain a newline and the match ends at the *last*
newline of the run), then a lazy body up to the nearest closing
fence. -/

def backtickChar : Char := Char.ofNat 96

/-- If `l` starts with three backticks, return the rest. -/
def isFence3 : List Char → Option (List Char)
  | c1 :: c2 :: c3 :: rest =>
    if c1 == backtickChar && c2 == backtickChar && c3 == backtickChar then some rest
    else none
  | _ => none

/-- If `l` starts with `sql` (case-insensitive), return the rest. -/
def dropSqlTag : List Char → Option (List Char)
  | c1 :: c2 :: c3 :: rest =>
    if c1.toLower == 's' && c2.toLower == 'q' && c3.toLower == 'l' then some rest
    else none
  | _ => none

/-- Match `\s*\n` at the head of `l` (greedy `\s*` with backtracking
into the final `\n`): succeeds iff the leading whitespace run contains
a newline, and consumes through the last newline of that run. -/
def wsThenNewline (l : List Char) : Option (List Char) :=
  let run := l.takeWhile isSpaceChar
  let rest := l.drop run.length
  let afterRev := run.reverse.takeWhile fun c => !(c == '\n')
  if afterRev.length == run.length then none
  else some (afterRev.reverse ++ rest)

/-- Lazy scan `[\s\S]*?` up to the nearest triple backtick; returns the
captured body and the remainder after the closing fence. -/
def untilFence (l : List Char) : Option (List Char × List Char) :=
  match isFence3 l with
  | some rest => some ([], rest)
  | none =>
    match l with
    | [] => none
    | c :: rest => (untilFence rest).map fun p => (c :: p.1, p.2)

/-- Match the tagged-fence regex at this position. -/
def matchTaggedAt (l : List Char) : Option (List Char × List Char) := do
  let r1 ← isFence3 l
  let r2 ← dropSqlTag r1
  let r3 ← wsThenNewline r2
  untilFence r3

/-- Match the generic-fence regex at this position. -/
def matchGenericAt (l : List Char) : Option (List Char × List Char) := do
  let r1 ← isFence3 l
  let r2 ← wsThenNewline r1
  untilFence r2

/-- Leftmost match: the capture of the first position where `matchAt`
succeeds (JavaScript `String.prototype.match` without `g`). -/
def firstCapture (matchAt : List Char → Option (List Char × List Char))
    (l : List Char) : Option (List Char) :=
  match matchAt l with
  | some (cap, _) => some cap
  | none =>
    match l with
    | [] => none
    | _ :: rest => firstCapture matchAt rest

/-- Global replacement by the empty string (JavaScript `.replace(re, '')`
with the `g` flag): repeatedly delete the leftmost match and continue
after it.  Each successful match of the fence regexes consumes at
least the two fences, so the fuel `l.length + 1` used at every call
site is never exhausted; the fuel-out branch returns the input
unchanged. -/
def stripAllMatches (matchAt : List Char → Option (List Char × List Char)) :
    Nat → List Char → List Char
  | 0, l => l
  | fuel + 1, l =>
    match matchAt l with
    | some (_, rest) => stripAllMatches matchAt fuel rest
    | none =>
      match l with
      | [] => []
      | c :: rest => c :: stripAllMatches matchAt fuel rest

/-! ### `extractSQL` (executor.ts:34-78) -/

def splitLinesChars (l : List Char) : List (List Char) := l.splitOn '\n'

/-- The fallback line scan of `extractSQL` (executor.ts:51-69),
faithfully including its branch structure: once a line that looks like
SQL has been seen, a blank line with a non-empty accumulator is pushed
by the *first* branch, which makes the later `break` branch
unreachable. -/
def lineScanAccum : List (List Char) → Bool → List (List Char) → List (List Char)
  | [], _, acc => acc
  | line :: rest, inSQL, acc =>
    let trimmed := trimChars line
    let inSQL2 := inSQL || QueryExecutor.looksLikeSQL trimmed
    if inSQL2 then
      if trimmed.length == 0 && acc.length > 0 then
        lineScanAccum rest inSQL2 (acc ++ [trimmed])
      else if trimmed.length > 0 then
        lineScanAccum rest inSQL2 (acc ++ [trimmed])
      else if acc.length > 0 then
        acc
      else
        lineScanAccum rest inSQL2 acc
    else
      lineScanAccum rest inSQL2 acc

/-- Tier 3 of `extractSQL`: join the accumulated lines, trim, and accept
if the text ends in a semicolon or itself looks like SQL. -/
def lineScanSQL (llmResponse : String) : Option String :=
  let sqlLines := lineScanAccum (splitLinesChars llmResponse.data) false []
  if sqlLines.length > 0 then
    let sql := trimChars (List.intercalate [('\n')] sqlLines)
    if sql.getLast? = some ';' then some (String.mk sql)
    else if QueryExecutor.looksLikeSQL sql then some (String.mk sql)
    else none
  else none

/-- `QueryExecutor.extractSQL` (executor.ts:34-78): tier 1 is a fenced
block tagged `sql` (skipped if its trimmed body is empty), tier 2 a
generic fenced block whose trimmed body looks like SQL, tier 3 the
fallback line scan. -/
def QueryExecutor.extractSQL (llmResponse : String) : Option String :=
  let t1 :=
    match firstCapture matchTaggedAt llmResponse.data with
    | some cap =>
      let sql := trimChars cap
      if sql.length > 0 then some (String.mk sql) else none
    | none => none
  match t1 with
  | some s => some s
  | none =>
    let t2 :=
      match firstCapture matchGenericAt llmResponse.data with
      | some cap =>
        let content := trimChars cap
        if QueryExecutor.looksLikeSQL content then some (String.mk content) else none
      | none => none
    match t2 with
    | some s => some s
    | none => lineScanSQL llmResponse

/-- The `textWithoutSQL` computation shared by the REPL (repl.ts:121-124)
and the WebSocket handler (chat-socket.ts:74-77): globally delete all
tagged fences, then all generic fences, then trim. -/
def stripSQLBlocks (content : String) : String :=
  let s1 := stripAllMatches matchTaggedAt (content.data.length + 1) content.data
  let s2 := stripAllMatches matchGenericAt (s1.length + 1) s1
  String.mk (trimChars s2)

/-! ### Execution (executor.ts:80-123)

The database collaborator (`DatabaseConnector`) is out of the core
scope; it is modelled by the results of its three operations.  A thrown
driver error is an `Except.error` carrying the message.  `execute`
additionally returns the list of collaborator calls it performed, so
that "the query is never sent to the database" is a provable
statement. -/

abbrev Row := List (String × String)

structure DbResult where
  rows : List Row
  rowCount : Nat
  duration : Nat
  columns : Option (List String) := none
deriving DecidableEq, Repr

structure DbConn where
  query : String → Except String DbResult
  readOnlyQuery : String → Except String DbResult
  connect : Except String String

inductive DbCall where
  | query (sql : String)
  | readOnlyQuery (sql : String)
deriving DecidableEq, Repr

structure ExecutionResult where
  sql : String
  rows : List Row
  rowCount : Nat
  duration : Nat
  columns : Option (List String) := none
  error : Option String := none
deriving DecidableEq, Repr

def READ_ONLY_BLOCK_MESSAGE : String :=
  "Modo somente leitura ativo. Desabilite read-only para executar."

/-- `QueryExecutor.execute` (executor.ts:80-123). -/
def QueryExecutor.execute (db : DbConn) (readOnlyMode : Bool) (sql : String) :
    ExecutionResult × List DbCall :=
  if QueryExecutor.isDestructiveQuery sql && readOnlyMode then
    ({ sql := sql, rows := [], rowCount := 0, duration := 0,
       error := some READ_ONLY_BLOCK_MESSAGE }, [])
  else if !QueryExecutor.isDestructiveQuery sql then
    match db.readOnlyQuery sql with
    | .ok r =>
      ({ sql := sql, rows := r.rows, rowCount := r.rowCount, duration := r.duration,
         columns := r.columns }, [DbCall.readOnlyQuery sql])
    | .error msg =>
      ({ sql := sql, rows := [], rowCount := 0, duration := 0, error := some msg },
       [DbCall.readOnlyQuery sql])
  else
    match db.query sql with
    | .ok r =>
      ({ sql := sql, rows := r.rows, rowCount := r.rowCount, duration := r.duration,
         columns := r.columns }, [DbCall.query sql])
    | .error msg =>
      ({ sql := sql, rows := [], rowCount := 0, duration := 0, error := some msg },
       [DbCall.query sql])

/-! ### Specification-side predicate for the destructive classifier

`DestructiveSpec` is modelled from the spec's words (§4.2): after
stripping comments and uppercasing, one of the seven keywords appears
word-bounded immediately after the start of the string or after a `;`
statement separator (in either case possibly preceded by
whitespace, as the separator description allows). -/

def kwHeadOk : List Char → Bool
  | [] => false
  | c :: _ => !isSpaceChar c

def SpecKeywordStart (kw s : List Char) : Prop :=
  ∃ sp rest, s = sp ++ kw ++ rest ∧ (∀ c ∈ sp, isSpaceChar c = true) ∧
    wordBoundary rest = true

def SpecKeywordAfterSemi (kw s : List Char) : Prop :=
  ∃ a sp rest, s = a ++ ';' :: (sp ++ kw ++ rest) ∧
    (∀ c ∈ sp, isSpaceChar c = true) ∧ wordBoundary rest = true

def DestructiveSpec (sql : String) : Prop :=
  ∃ kw ∈ DESTRUCTIVE_KEYWORDS,
    SpecKeywordStart kw (cleanedSQL sql) ∨ SpecKeywordAfterSemi kw (cleanedSQL sql)

/-! ### Streaming model client (llm.ts)

The conversation history and its trimming, the OpenAI-provider SSE
parser, and the OpenAI-provider round trip of `chat`.  The HTTP
transport and the JSON parser are external collaborators: a transport
response is modelled by its status code together with the parsed form
of its body (each `data:` SSE line as the parsed event, `none` for a
line whose JSON does not parse, which the source silently skips). -/

inductive LLMRole where
  | system
  | user
  | assistant
deriving DecidableEq, Repr

structure LLMMessage where
  role : LLMRole
  content : String
deriving DecidableEq, Repr

structure TokensUsed where
  prompt : Nat
  completion : Nat
  total : Nat
deriving DecidableEq, Repr

structure LLMResponse where
  content : String
  tokensUsed : TokensUsed
deriving DecidableEq, Repr

def MAX_HISTORY_MESSAGES : Nat := 20

/-- `LLMClient.trimHistory` (llm.ts:926-931): drop the excess from the
front when the bound is exceeded. -/
def LLMClient.trimHistory (h : List LLMMessage) : List LLMMessage :=
  if MAX_HISTORY_MESSAGES < h.length then h.drop (h.length - MAX_HISTORY_MESSAGES)
  else h

/-- `LLMClient.addToHistory` (llm.ts:671-674). -/
def LLMClient.addToHistory (h : List LLMMessage) (m : LLMMessage) : List LLMMessage :=
  LLMClient.trimHistory (h ++ [m])

structure SSEContentPart where
  type : Option String := none
  text : Option String := none
deriving DecidableEq, Repr

structure SSEOutputItem where
  type : Option String := none
  role : Option String := none
  content : Option (List SSEContentPart) := none
deriving DecidableEq, Repr

structure SSEUsage where
  input_tokens : Option Nat := none
  output_tokens : Option Nat := none
  total_tokens : Option Nat := none
deriving DecidableEq, Repr

structure SSEResponseObj where
  output : Option (List SSEOutputItem) := none
  usage : Option SSEUsage := none
deriving DecidableEq, Repr

structure SSEEvent where
  type : Option String := none
  response : Option SSEResponseObj := none
  delta : Option String := none
deriving DecidableEq, Repr

/-- One line of the streamed body: a `data:` line with its parsed JSON
event (`none` when parsing fails, or for the empty and `[DONE]`
payloads, all of which the source skips), or any other line. -/
inductive SSELine where
  | data (e : Option SSEEvent)
  | other
deriving DecidableEq, Repr

structure SSEUsageTriple where
  input : Nat
  output : Nat
  total : Nat
deriving DecidableEq, Repr

/-- Inner part loop of the completed-event handler (llm.ts:517-521):
each assistant `output_text` part overwrites the running content. -/
def sseCompletedFoldPart (c : String) (p : SSEContentPart) : String :=
  if p.type = some "output_text" then
    match p.text with
    | some t => t
    | none => c
  else c

/-- Item loop of the completed-event handler (llm.ts:513-524). -/
def sseCompletedFoldItem (c : String) (it : SSEOutputItem) : String :=
  if it.type = some "message" ∧ it.role = some "assistant" then
    match it.content with
    | some parts => parts.foldl sseCompletedFoldPart c
    | none => c
  else c

def sseIsCompletedType (e : SSEEvent) : Bool :=
  e.type == some "response.completed" || e.type == some "response.done"

def sseEventContent (c : String) (e : SSEEvent) : String :=
  match e.response with
  | some resp =>
    match resp.output with
    | some out => out.foldl sseCompletedFoldItem c
    | none => c
  | none => c

def sseEventUsage (u : SSEUsageTriple) (e : SSEEvent) : SSEUsageTriple :=
  match e.response with
  | some resp =>
    match resp.usage with
    | some ud =>
      { input := ud.input_tokens.getD 0, output := ud.output_tokens.getD 0,
        total := ud.total_tokens.getD (ud.input_tokens.getD 0 + ud.output_tokens.getD 0) }
    | none => u
  | none => u

/-- First pass of `extractTextFromSSE` (llm.ts:499-539): only
completed-type events touch the accumulated content and usage. -/
def sseProcessLine (acc : String × SSEUsageTriple) (l : SSELine) : String × SSEUsageTriple :=
  match l with
  | .data (some e) =>
    if sseIsCompletedType e then (sseEventContent acc.1 e, sseEventUsage acc.2 e)
    else acc
  | _ => acc

/-- Second pass of `extractTextFromSSE` (llm.ts:541-555): concatenate
the `output_text.delta` events in stream order. -/
def sseDeltaFold (c : String) (l : SSELine) : String :=
  match l with
  | .data (some e) =>
    if e.type = some "response.output_text.delta" then
      match e.delta with
      | some d => c ++ d
      | none => c
    else c
  | _ => c

def sseDeltaConcat (lines : List SSELine) : String :=
  lines.foldl sseDeltaFold ""

/-- `extractTextFromSSE` (llm.ts:495-558): the completed-event text is
authoritative; the delta concatenation is used only when the first
pass produced the empty string. -/
def extractTextFromSSE (lines : List SSELine) : String × SSEUsageTriple :=
  let firstPass := lines.foldl sseProcessLine ("", { input := 0, output := 0, total := 0 })
  if firstPass.1 = "" then (sseDeltaConcat lines, firstPass.2) else firstPass

/-! Analysis helpers for the SSE parser: the completed-type events of a
stream, and the assistant `output_text` such an event carries (the
last such part wins, mirroring the overwrite order of the source). -/

def sseCompletedEventsOf (lines : List SSELine) : List SSEEvent :=
  lines.filterMap fun l =>
    match l with
    | .data (some e) => if sseIsCompletedType e then some e else none
    | _ => none

def ssePartTextOpt (acc : Option String) (p : SSEContentPart) : Option String :=
  if p.type = some "output_text" then
    match p.text with
    | some t => some t
    | none => acc
  else acc

def sseItemTextOpt (acc : Option String) (it : SSEOutputItem) : Option String :=
  if it.type = some "message" ∧ it.role = some "assistant" then
    match it.content with
    | some parts => parts.foldl ssePartTextOpt acc
    | none => acc
  else acc

def sseEventTextOpt (e : SSEEvent) : Option String :=
  match e.response with
  | some resp =>
    match resp.output with
    | some out => out.foldl sseItemTextOpt none
    | none => none
  | none => none

/-! ### The OpenAI-provider round trip (llm.ts:832-924) -/

structure HttpResponse where
  statusCode : Nat
  sseLines : List SSELine
  errorEnvelope : Option String := none
  rawBody : String := ""
deriving DecidableEq, Repr

structure ClientState where
  history : List LLMMessage
  systemPrompt : String := ""
  modelOverride : Option String := none
deriving DecidableEq, Repr

inductive AttemptOutcome where
  | retry401
  | fail (e : String)
  | success (h : List LLMMessage) (r : LLMResponse)
deriving DecidableEq, Repr

/-- The error message for a non-200, non-401/429/5xx status
(llm.ts:889-907); `errorEnvelope` models the human message extracted
from a parseable vendor error body. -/
def apiErrorMessage (r : HttpResponse) : String :=
  let base := "Erro na API ChatGPT (HTTP " ++ toString r.statusCode ++ ")"
  match r.errorEnvelope with
  | some m => base ++ ": " ++ m
  | none => if r.rawBody.length < 500 then base ++ ": " ++ r.rawBody else base

/-- One attempt of `doChatOpenAI` on a transport response: the status
ladder of llm.ts:873-907, then SSE extraction, the empty-content
check, and the assistant append of llm.ts:921. -/
def LLMClient.doChatOpenAIAttempt (hist : List LLMMessage) (r : HttpResponse) :
    AttemptOutcome :=
  if r.statusCode = 401 then .retry401
  else if r.statusCode = 429 then
    .fail "Limite de uso atingido. Aguarde um momento e tente novamente."
  else if 500 ≤ r.statusCode then
    .fail "Serviço indisponível. Tente novamente em alguns instantes."
  else if r.statusCode ≠ 200 then .fail (apiErrorMessage r)
  else
    let parsed := extractTextFromSSE r.sseLines
    if parsed.1 = "" then .fail "Resposta vazia do ChatGPT. Tente novamente."
    else
      .success (hist ++ [{ role := .assistant, content := parsed.1 }])
        { content := parsed.1,
          tokensUsed := { prompt := parsed.2.input, completion := parsed.2.output,
                          total := parsed.2.total } }

/-- `doChatOpenAI` (llm.ts:832-924): a 401 on the first attempt
triggers one transparent retry (`r2`); a second 401 is fatal. -/
def LLMClient.doChatOpenAI (hist : List LLMMessage) (r1 r2 : HttpResponse) :
    Except String (List LLMMessage × LLMResponse) :=
  match LLMClient.doChatOpenAIAttempt hist r1 with
  | .retry401 =>
    match LLMClient.doChatOpenAIAttempt hist r2 with
    | .retry401 => .error "Token inválido ou expirado. Faça login novamente."
    | .fail e => .error e
    | .success h r => .ok (h, r)
  | .fail e => .error e
  | .success h r => .ok (h, r)

/-- `LLMClient.chat` on the OpenAI provider path (llm.ts:657-661):
append the user message, trim, then perform the round trip.  `r1` is
the transport response to the first request, `r2` the response to the
retry request after a 401 (unused otherwise). -/
def LLMClient.chatOpenAI (st : ClientState) (userMessage : String)
    (r1 r2 : HttpResponse) : ClientState × Except String LLMResponse :=
  let h1 := LLMClient.trimHistory
    (st.history ++ [{ role := .user, content := userMessage }])
  match LLMClient.doChatOpenAI h1 r1 r2 with
  | .ok hr => ({ st with history := hr.1 }, .ok hr.2)
  | .error e => ({ st with history := h1 }, .error e)

/-! Concrete material used by witnesses. -/

def trivialDb : DbConn where
  query := fun _ => .error "no database"
  readOnlyQuery := fun _ => .error "no database"
  connect := .error "no database"

def demoCompletedEvent : SSEEvent :=
  { type := some "response.completed",
    response := some
      { output := some
          [{ type := some "message", role := some "assistant",
             content := some [{ type := some "output_text", text := some "Final" }] }],
        usage := none } }

def demoSSELines : List SSELine :=
  [SSELine.data (some { type := some "response.output_text.delta", delta := some "prov" }),
   SSELine.other,
   SSELine.data none,
   SSELine.data (some { type := some "response.output_text.delta", delta := some "isional" }),
   SSELine.data (some demoCompletedEvent)]

def demoHistory20 : List LLMMessage :=
  List.replicate 20 { role := LLMRole.user, content := "m" }

def demoSuccess200 : HttpResponse :=
  { statusCode := 200, sseLines := [SSELine.data (some demoCompletedEvent)] }

def demo429 : HttpResponse :=
  { statusCode := 429, sseLines := [] }

/-! ### Schema engine (schema-engine.ts)

The five catalog queries are external database calls; their row sets
are the input.  The JavaScript `Map` objects with push-into-entry
updates are modelled as functions `String → List α` updated pointwise
(`get(k) ?? []` is exactly application), and the `Set` of primary keys
as a membership test. -/

structure ColumnInfo where
  name : String
  type : String
  nullable : Bool
  defaultValue : Option String
  isPrimaryKey : Bool
  comment : Option String
deriving DecidableEq, Repr

structure ForeignKey where
  column : String
  referencedSchema : String
  referencedTable : String
  referencedColumn : String
deriving DecidableEq, Repr

structure IndexInfo where
  name : String
  columns : List String
  isUnique : Bool
  isPrimary : Bool
deriving DecidableEq, Repr

inductive TableKind where
  | table
  | view
deriving DecidableEq, Repr

structure TableInfo where
  schema : String
  name : String
  type : TableKind
  columns : List ColumnInfo
  foreignKeys : List ForeignKey
  referencedBy : List ForeignKey
  indexes : List IndexInfo
  estimatedRowCount : Nat
  comment : Option String
deriving DecidableEq, Repr

structure SchemaMap where
  database : String
  version : String
  schemas : List String
  tables : List TableInfo
  mappedAt : Nat
deriving DecidableEq, Repr

structure TableRow where
  table_schema : String
  table_name : String
  table_type : String
  comment : Option String := none
  estimated_rows : Option Int := none
deriving DecidableEq, Repr

structure ColumnRow where
  table_schema : String
  table_name : String
  column_name : String
  data_type : String
  character_maximum_length : Option Nat := none
  is_nullable : String
  column_default : Option String := none
  comment : Option String := none
deriving DecidableEq, Repr

structure PKRow where
  table_schema : String
  table_name : String
  column_name : String
deriving DecidableEq, Repr

structure FKRow where
  table_schema : String
  table_name : String
  column_name : String
  referenced_schema : String
  referenced_table : String
  referenced_column : String
deriving DecidableEq, Repr

structure IndexRow where
  schemaname : String
  tablename : String
  indexname : String
  indexdef : String
deriving DecidableEq, Repr

/-- The results of the catalog queries of `mapDatabase`
(schema-engine.ts:102-183), plus the clock reading for `mappedAt`. -/
structure CatalogInput where
  database : String
  version : String
  tableRows : List TableRow
  columnRows : List ColumnRow
  pkRows : List PKRow
  fkRows : List FKRow
  indexRows : List IndexRow
  mappedAt : Nat
deriving DecidableEq, Repr

/-- JavaScript `String.prototype.replace` with a plain-string pattern:
replace the first occurrence only. -/
def replaceFirst (l pat rep : List Char) : List Char :=
  if pat.isPrefixOf l then rep ++ l.drop pat.length
  else
    match l with
    | [] => []
    | c :: rest => c :: replaceFirst rest pat rep

/-- The cosmetic type-normalization chain (schema-engine.ts:255-261). -/
def normalizeColumnType (t : String) : String :=
  String.mk
    (replaceFirst (replaceFirst (replaceFirst (replaceFirst (replaceFirst (replaceFirst
      t.data
      ("character varying").data ("varchar").data)
      ("character").data ("char").data)
      ("timestamp without time zone").data ("timestamp").data)
      ("timestamp with time zone").data ("timestamptz").data)
      ("double precision").data ("float8").data)
      ("boolean").data ("bool").data)

/-- Match `PostgreSQL\s+([\d.]+)` at this position. -/
def matchPgVersionAt (l : List Char) : Option (List Char) :=
  if ("PostgreSQL").data.isPrefixOf l then
    let r1 := l.drop ("PostgreSQL").data.length
    let sp := r1.takeWhile isSpaceChar
    if sp.length = 0 then none
    else
      let r2 := r1.drop sp.length
      let digits := r2.takeWhile fun c => c.isDigit || c == '.'
      if digits.length = 0 then none else some digits
  else none

def firstPgVersion : List Char → Option (List Char)
  | [] => none
  | l@(_ :: rest) =>
    match matchPgVersionAt l with
    | some d => some d
    | none => firstPgVersion rest

/-- The version cosmetics of schema-engine.ts:110-112. -/
def extractPgVersion (fullVersion : String) : String :=
  match firstPgVersion fullVersion.data with
  | some d => "PostgreSQL " ++ String.mk d
  | none => fullVersion

def tableKeyOf (s t : String) : String := s ++ "." ++ t

/-- Pointwise model of `map.get(k)!.push(v)` after
`if (!map.has(k)) map.set(k, [])`. -/
def pushMap {α : Type} (m : String → List α) (k : String) (v : α) : String → List α :=
  fun q => if q = k then m q ++ [v] else m q

def mkFKInfo (r : FKRow) : ForeignKey :=
  { column := r.column_name, referencedSchema := r.referenced_schema,
    referencedTable := r.referenced_table, referencedColumn := r.referenced_column }

def mkReverseFK (r : FKRow) : ForeignKey :=
  { column := r.referenced_column, referencedSchema := r.table_schema,
    referencedTable := r.table_name, referencedColumn := r.column_name }

/-- The simultaneous construction of the outgoing and incoming
foreign-key maps (schema-engine.ts:192-218). -/
def buildFKMaps (rows : List FKRow) :
    (String → List ForeignKey) × (String → List ForeignKey) :=
  rows.foldl
    (fun m r =>
      (pushMap m.1 (tableKeyOf r.table_schema r.table_name) (mkFKInfo r),
       pushMap m.2 (tableKeyOf r.referenced_schema r.referenced_table) (mkReverseFK r)))
    (fun _ => [], fun _ => [])

def pkSetContains (pks : List PKRow) (key : String) : Bool :=
  pks.any fun p =>
    tableKeyOf p.table_schema p.table_name ++ "." ++ p.column_name == key

def mkColumnInfo (pks : List PKRow) (c : ColumnRow) : ColumnInfo :=
  let rawType :=
    match c.character_maximum_length with
    | some n => if n = 0 then c.data_type else c.data_type ++ "(" ++ toString n ++ ")"
    | none => c.data_type
  { name := c.column_name,
    type := normalizeColumnType rawType,
    nullable := c.is_nullable == "YES",
    defaultValue := c.column_default,
    isPrimaryKey := pkSetContains pks
      (tableKeyOf c.table_schema c.table_name ++ "." ++ c.column_name),
    comment := c.comment }

def buildColumnMap (pks : List PKRow) (rows : List ColumnRow) : String → List ColumnInfo :=
  rows.foldl
    (fun m c => pushMap m (tableKeyOf c.table_schema c.table_name) (mkColumnInfo pks c))
    (fun _ => [])

/-- Leftmost match of the parenthesized-column-list regex (one group of
one or more non-`)` characters). -/
def firstParenCapture : List Char → Option (List Char)
  | [] => none
  | '(' :: rest =>
    let run := rest.takeWhile fun c => !(c == ')')
    if run.length > 0 && (rest.drop run.length).head? == some ')' then some run
    else firstParenCapture rest
  | _ :: rest => firstParenCapture rest

def containsSub (pat : List Char) : List Char → Bool
  | [] => pat.isPrefixOf ([] : List Char)
  | l@(_ :: rest) => pat.isPrefixOf l || containsSub pat rest

/-- Best-effort index parsing from the rendered DDL
(schema-engine.ts:223-243). -/
def mkIndexInfo (r : IndexRow) : IndexInfo :=
  let columns :=
    match firstParenCapture r.indexdef.data with
    | some cap =>
      (cap.splitOn ',').map fun c =>
        String.mk ((trimChars c).filter fun ch => !(ch == '"'))
    | none => []
  let isUnique := containsSub ("UNIQUE").data (upperChars r.indexdef.data)
  let isPrimary := ("_pkey").data.isSuffixOf r.indexname.data
  { name := r.indexname, columns := columns,
    isUnique := isUnique || isPrimary, isPrimary := isPrimary }

def buildIndexMap (rows : List IndexRow) : String → List IndexInfo :=
  rows.foldl (fun m r => pushMap m (tableKeyOf r.schemaname r.tablename) (mkIndexInfo r))
    (fun _ => [])

def insertUniq (acc : List String) (s : String) : List String :=
  if s ∈ acc then acc else acc ++ [s]

/-- `Array.from(schemas).sort()` over the insertion-ordered set. -/
def schemasOf (rows : List TableRow) : List String :=
  ((rows.map fun t => t.table_schema).foldl insertUniq []).mergeSort
    fun a b => decide (a ≤ b)

def mkTableInfo (colMap : String → List ColumnInfo)
    (fkMap rbMap : String → List ForeignKey) (idxMap : String → List IndexInfo)
    (t : TableRow) : TableInfo :=
  { schema := t.table_schema,
    name := t.table_name,
    type := if t.table_type == "VIEW" then .view else .table,
    columns := colMap (tableKeyOf t.table_schema t.table_name),
    foreignKeys := fkMap (tableKeyOf t.table_schema t.table_name),
    referencedBy := rbMap (tableKeyOf t.table_schema t.table_name),
    indexes := idxMap (tableKeyOf t.table_schema t.table_name),
    estimatedRowCount :=
      match t.estimated_rows with
      | some n => (max 0 n).toNat
      | none => 0,
    comment := t.comment }

/-- `SchemaEngine.mapDatabase` (schema-engine.ts:101-312) as a function
of the catalog query results. -/
def SchemaEngine.mapDatabase (input : CatalogInput) : SchemaMap :=
  let fkMaps := buildFKMaps input.fkRows
  let colMap := buildColumnMap input.pkRows input.columnRows
  let idxMap := buildIndexMap input.indexRows
  { database := input.database,
    version := extractPgVersion input.version,
    schemas := schemasOf input.tableRows,
    tables := input.tableRows.map (mkTableInfo colMap fkMaps.1 fkMaps.2 idxMap),
    mappedAt := input.mappedAt }

/-! ### `findRelatedTables` (schema-engine.ts:327-379) -/

def tableSelfKey (t : TableInfo) : String := tableKeyOf t.schema t.name

/-- The `tableMap` built by `for (t of tables) map.set(key(t), t)`:
the last table with a given key wins. -/
def buildTableMap (tables : List TableInfo) : String → Option TableInfo :=
  tables.foldl (fun m t => fun k => if k = tableSelfKey t then some t else m k)
    (fun _ => none)

def fkRefKey (fk : ForeignKey) : String :=
  tableKeyOf fk.referencedSchema fk.referencedTable

/-- One edge of the BFS expansion: enqueue the referenced key at depth
`d + 1` unless already visited, marking it visited at enqueue time. -/
def enqueueStep (d : Nat) (qv : List (String × Nat) × List String) (fk : ForeignKey) :
    List (String × Nat) × List String :=
  if fkRefKey fk ∈ qv.2 then qv
  else (qv.1 ++ [(fkRefKey fk, d + 1)], qv.2 ++ [fkRefKey fk])

def enqueueEdges (edges : List ForeignKey) (d : Nat)
    (qv : List (String × Nat) × List String) :
    List (String × Nat) × List String :=
  edges.foldl (enqueueStep d) qv

/-- The BFS loop of `findRelatedTables`.  The fuel only bounds the
number of iterations: each iteration dequeues one item and every item
is enqueued at most once (enqueuing marks the key visited), so the
fuel chosen in `findRelatedTables` — one start item plus one per
foreign-key edge plus slack — is never exhausted. -/
def bfsLoop (tm : String → Option TableInfo) (depth : Nat) :
    Nat → List (String × Nat) → List String → List TableInfo → List TableInfo
  | 0, _, _, acc => acc
  | _ + 1, [], _, acc => acc
  | fuel + 1, (k, d) :: qs, visited, acc =>
    let acc2 := if 0 < d then (tm k).elim acc (fun t => acc ++ [t]) else acc
    if depth ≤ d then bfsLoop tm depth fuel qs visited acc2
    else
      (tm k).elim (bfsLoop tm depth fuel qs visited acc2) fun t =>
        let qv2 := enqueueEdges t.referencedBy d (enqueueEdges t.foreignKeys d (qs, visited))
        bfsLoop tm depth fuel qv2.1 qv2.2 acc2

def bfsFuel (sm : SchemaMap) : Nat :=
  1 + sm.tables.length +
    (sm.tables.map fun t => t.foreignKeys.length + t.referencedBy.length).sum

/-- `SchemaEngine.findRelatedTables` (schema-engine.ts:327-379). -/
def SchemaEngine.findRelatedTables (sm : SchemaMap) (schemaName tableName : String)
    (depth : Nat := 2) : List TableInfo :=
  bfsLoop (buildTableMap sm.tables) depth (bfsFuel sm)
    [(tableKeyOf schemaName tableName, 0)] [tableKeyOf schemaName tableName] []

/-- The keys adjacent to a table in the union of outgoing and incoming
foreign-key edges. -/
def tableAdjKeys (t : TableInfo) : List String :=
  (t.foreignKeys ++ t.referencedBy).map fkRefKey

/-- `k2` lies within `n` hops of `k1` over the union of outgoing and
incoming foreign-key edges of the mapped tables. -/
inductive ReachWithin (tm : String → Option TableInfo) : String → String → Nat → Prop
  | refl (k : String) (n : Nat) : ReachWithin tm k k n
  | step {k1 k2 k3 : String} {n : Nat} (t : TableInfo) :
      ReachWithin tm k1 k2 n → tm k2 = some t → k3 ∈ tableAdjKeys t →
      ReachWithin tm k1 k3 (n + 1)

/-- The BFS loop invariant: the start key is visited; queued items are
within the depth bound, reachable at their recorded depth, and (except
the start item) distinct from the start key; queued keys are visited;
accumulated tables satisfy the final safety properties; and the queued
keys together with the accumulated keys are distinct. -/
def BfsInv (tm : String → Option TableInfo) (depth : Nat) (startKey : String)
    (queue : List (String × Nat)) (visited : List String)
    (acc : List TableInfo) : Prop :=
  startKey ∈ visited ∧
  (∀ p ∈ queue, p.2 ≤ depth ∧ ReachWithin tm startKey p.1 p.2 ∧
    (0 < p.2 → p.1 ≠ startKey)) ∧
  (∀ p ∈ queue, p.1 ∈ visited) ∧
  (∀ t ∈ acc, tableSelfKey t ≠ startKey ∧
    ReachWithin tm startKey (tableSelfKey t) depth) ∧
  (queue.map Prod.fst ++ acc.map tableSelfKey).Nodup ∧
  (∀ t ∈ acc, tableSelfKey t ∈ visited)

/-! Concrete catalog material used by witnesses. -/

def demoFKRow : FKRow :=
  { table_schema := "public", table_name := "orders", column_name := "user_id",
    referenced_schema := "public", referenced_table := "users",
    referenced_column := "id" }

def demoCatalog : CatalogInput :=
  { database := "shop",
    version := "PostgreSQL 16.2 on x86_64-pc-linux-gnu",
    tableRows :=
      [{ table_schema := "public", table_name := "orders", table_type := "BASE TABLE" },
       { table_schema := "public", table_name := "users", table_type := "BASE TABLE" }],
    columnRows := [],
    pkRows := [],
    fkRows := [demoFKRow],
    indexRows := [],
    mappedAt := 0 }

/-! ### Turn orchestration (repl.ts and chat-socket.ts)

The Model Client is an oracle mapping the index of the call within the
turn (0 = the initial chat, 1 = the next call, ...) to its outcome — a
thrown error is `Except.error`.  The database collaborator is the
`DbConn` of the executor model.  A turn is a pure function returning
the emitted events in order, the prompts sent to the Model Client, the
call counts, and the bookkeeping state, so "exactly one correction
attempt" and "no further calls" are provable statements. -/

/-- Models the external `JSON.stringify(rows, null, 2)` call; the exact
rendering never matters to the properties proved here. -/
def jsonStringifyRows (rows : List Row) : String :=
  String.intercalate "\n"
    (rows.map fun r => String.intercalate ", " (r.map fun p => p.1 ++ "=" ++ p.2))

/-- The correction prompt of repl.ts:170-171. -/
def fixPrompt (e : String) : String :=
  "A query retornou um erro:\n" ++ e ++ "\n\nPor favor, corrija a query."

/-- The summary prompt of repl.ts:243 and chat-socket.ts:119. -/
def summaryPrompt (r : ExecutionResult) : String :=
  "Resultado da query (" ++ toString r.rowCount ++ " linhas, " ++
    toString r.duration ++ "ms):\n" ++ jsonStringifyRows (r.rows.take 20)

inductive ReplEvent where
  | agentText (s : String)
  | sqlText (s : String)
  | warnText (s : String)
  | errorText (s : String)
  | dimText (s : String)
  | successText (s : String)
  | tableRows (rows : List Row)
deriving DecidableEq, Repr

structure ReplTurn where
  events : List ReplEvent
  llmPrompts : List String
  llmCalls : Nat
  execCalls : Nat
  dbCalls : List DbCall
  totalTokens : Nat
  lastResult : Option ExecutionResult
deriving DecidableEq, Repr

/-- `showQueryResult` (repl.ts:230-237). -/
def showQueryResultEvents (r : ExecutionResult) : List ReplEvent :=
  (if r.rows.length > 0 then [ReplEvent.tableRows r.rows] else []) ++
    [ReplEvent.dimText (toString r.rowCount ++ " linha" ++
      (if r.rowCount != 1 then "s" else "") ++ " | " ++ toString r.duration ++ "ms")]

/-- `sendResultToLLM` (repl.ts:239-260): no call for an empty row set;
the summary chat failure is swallowed.  Returns the emitted events,
the prompt sent (if any), the number of Model Client calls made, and
the tokens consumed. -/
def sendResultToLLM (llm : Nat → Except String LLMResponse) (callIdx : Nat)
    (r : ExecutionResult) : List ReplEvent × List String × Nat × Nat :=
  if r.rows.length = 0 then ([], [], 0, 0)
  else
    match llm callIdx with
    | .ok resp =>
      ([ReplEvent.agentText resp.content], [summaryPrompt r], 1, resp.tokensUsed.total)
    | .error _ => ([], [summaryPrompt r], 1, 0)

/-- `ChatREPL.processInput` (repl.ts:105-228).  `confirmDestructive` is
the user's answer to the destructive-query confirmation (only
consulted for a destructive query in write mode). -/
def ChatREPL.processInput (llm : Nat → Except String LLMResponse) (db : DbConn)
    (readOnly : Bool) (confirmDestructive : Bool) (input : String) : ReplTurn :=
  match llm 0 with
  | .error msg =>
    if containsSub ("connection").data msg.data ||
        containsSub ("ECONNREFUSED").data msg.data then
      match db.connect with
      | .ok _ =>
        { events :=
            [ReplEvent.warnText "Conexão com o banco perdida. Tentando reconectar...",
             ReplEvent.successText "Reconectado! Tente novamente."],
          llmPrompts := [input], llmCalls := 1, execCalls := 0, dbCalls := [],
          totalTokens := 0, lastResult := none }
      | .error _ =>
        { events :=
            [ReplEvent.warnText "Conexão com o banco perdida. Tentando reconectar...",
             ReplEvent.errorText "Falha ao reconectar. Use /reconnect."],
          llmPrompts := [input], llmCalls := 1, execCalls := 0, dbCalls := [],
          totalTokens := 0, lastResult := none }
    else
      { events := [ReplEvent.errorText msg], llmPrompts := [input], llmCalls := 1,
        execCalls := 0, dbCalls := [], totalTokens := 0, lastResult := none }
  | .ok response =>
    match QueryExecutor.extractSQL response.content with
    | none =>
      { events := [ReplEvent.agentText response.content], llmPrompts := [input],
        llmCalls := 1, execCalls := 0, dbCalls := [],
        totalTokens := response.tokensUsed.total, lastResult := none }
    | some sql =>
      let textWithoutSQL := stripSQLBlocks response.content
      let pre :=
        (if textWithoutSQL ≠ "" then [ReplEvent.agentText textWithoutSQL] else []) ++
          [ReplEvent.sqlText sql]
      if QueryExecutor.isDestructiveQuery sql && readOnly then
        { events := pre ++
            [ReplEvent.warnText
              "Modo somente leitura ativo. Use /write para habilitar escrita."],
          llmPrompts := [input], llmCalls := 1, execCalls := 0, dbCalls := [],
          totalTokens := response.tokensUsed.total, lastResult := none }
      else if QueryExecutor.isDestructiveQuery sql && !confirmDestructive then
        { events := pre ++ [ReplEvent.dimText "Execução cancelada."],
          llmPrompts := [input], llmCalls := 1, execCalls := 0, dbCalls := [],
          totalTokens := response.tokensUsed.total, lastResult := none }
      else
        let er := QueryExecutor.execute db readOnly sql
        match er.1.error with
        | some e =>
          let ev1 := pre ++ [ReplEvent.errorText ("Erro SQL: " ++ e)]
          match llm 1 with
          | .error msg =>
            { events := ev1 ++ [ReplEvent.errorText ("Não foi possível corrigir: " ++ msg)],
              llmPrompts := [input, fixPrompt e], llmCalls := 2, execCalls := 1,
              dbCalls := er.2, totalTokens := response.tokensUsed.total,
              lastResult := some er.1 }
          | .ok fixResponse =>
            match QueryExecutor.extractSQL fixResponse.content with
            | none =>
              { events := ev1 ++ [ReplEvent.agentText fixResponse.content],
                llmPrompts := [input, fixPrompt e], llmCalls := 2, execCalls := 1,
                dbCalls := er.2,
                totalTokens := response.tokensUsed.total + fixResponse.tokensUsed.total,
                lastResult := some er.1 }
            | some fixedSQL =>
              let er2 := QueryExecutor.execute db readOnly fixedSQL
              let ev2 := ev1 ++ [ReplEvent.agentText "Tentando query corrigida:",
                                 ReplEvent.sqlText fixedSQL]
              match er2.1.error with
              | some e2 =>
                { events := ev2 ++ [ReplEvent.errorText ("Erro persistente: " ++ e2)],
                  llmPrompts := [input, fixPrompt e], llmCalls := 2, execCalls := 2,
                  dbCalls := er.2 ++ er2.2,
                  totalTokens := response.tokensUsed.total + fixResponse.tokensUsed.total,
                  lastResult := some er2.1 }
              | none =>
                let summary := sendResultToLLM llm 2 er2.1
                { events := ev2 ++ showQueryResultEvents er2.1 ++ summary.1,
                  llmPrompts := [input, fixPrompt e] ++ summary.2.1,
                  llmCalls := 2 + summary.2.2.1, execCalls := 2,
                  dbCalls := er.2 ++ er2.2,
                  totalTokens := response.tokensUsed.total +
                    fixResponse.tokensUsed.total + summary.2.2.2,
                  lastResult := some er2.1 }
        | none =>
          let summary := sendResultToLLM llm 1 er.1
          { events := pre ++ showQueryResultEvents er.1 ++ summary.1,
            llmPrompts := [input] ++ summary.2.1,
            llmCalls := 1 + summary.2.2.1, execCalls := 1, dbCalls := er.2,
            totalTokens := response.tokensUsed.total + summary.2.2.2,
            lastResult := some er.1 }

structure WsHistEntry where
  sql : String
  rowCount : Nat
  duration : Nat
  error : Option String := none
  timestamp : String
deriving DecidableEq, Repr

inductive WsEvent where
  | thinking
  | text (s : String)
  | sql (s : String)
  | executing
  | result (rows : List Row) (rowCount : Nat) (duration : Nat) (columns : List String)
  | summary (s : String)
  | error (s : String)
deriving DecidableEq, Repr

structure WsTurn where
  events : List WsEvent
  llmPrompts : List String
  llmCalls : Nat
  execCalls : Nat
  dbCalls : List DbCall
  queryHistory : List WsHistEntry
deriving DecidableEq, Repr

/-- The message handler installed by `setupChatSocket`
(chat-socket.ts:33-136).  `validMessage`, `hasConnection` and
`isAuthenticated` model the three guards; `now` the timestamp read for
the query-history entry. -/
def setupChatSocketOnMessage (llm : Nat → Except String LLMResponse) (db : DbConn)
    (readOnly : Bool) (validMessage hasConnection isAuthenticated : Bool)
    (content : String) (queryHistory0 : List WsHistEntry) (now : String) : WsTurn :=
  if !validMessage then
    { events := [WsEvent.error "Formato de mensagem inválido"], llmPrompts := [],
      llmCalls := 0, execCalls := 0, dbCalls := [], queryHistory := queryHistory0 }
  else if !hasConnection then
    { events := [WsEvent.error "Nenhum banco conectado. Conecte a um banco primeiro."],
      llmPrompts := [], llmCalls := 0, execCalls := 0, dbCalls := [],
      queryHistory := queryHistory0 }
  else if !isAuthenticated then
    { events := [WsEvent.error "Não autenticado. Faça login primeiro."],
      llmPrompts := [], llmCalls := 0, execCalls := 0, dbCalls := [],
      queryHistory := queryHistory0 }
  else
    match llm 0 with
    | .error msg =>
      { events := [WsEvent.thinking, WsEvent.error msg], llmPrompts := [content],
        llmCalls := 1, execCalls := 0, dbCalls := [], queryHistory := queryHistory0 }
    | .ok response =>
      match QueryExecutor.extractSQL response.content with
      | none =>
        { events := [WsEvent.thinking, WsEvent.text response.content],
          llmPrompts := [content], llmCalls := 1, execCalls := 0, dbCalls := [],
          queryHistory := queryHistory0 }
      | some sql =>
        let textWithoutSQL := stripSQLBlocks response.content
        let pre := [WsEvent.thinking] ++
          (if textWithoutSQL ≠ "" then [WsEvent.text textWithoutSQL] else []) ++
          [WsEvent.sql sql, WsEvent.executing]
        let er := QueryExecutor.execute db readOnly sql
        let hist1 : List WsHistEntry :=
          { sql := sql, rowCount := er.1.rowCount, duration := er.1.duration,
            error := er.1.error, timestamp := now } :: queryHistory0
        let hist2 := if hist1.length > 50 then hist1.dropLast else hist1
        match er.1.error with
        | some e =>
          { events := pre ++ [WsEvent.error ("Erro SQL: " ++ e)],
            llmPrompts := [content], llmCalls := 1, execCalls := 1,
            dbCalls := er.2, queryHistory := hist2 }
        | none =>
          let cols := er.1.columns.getD ((er.1.rows.head?.getD []).map Prod.fst)
          let resultEv := WsEvent.result er.1.rows er.1.rowCount er.1.duration cols
          if er.1.rows.length > 0 then
            match llm 1 with
            | .ok s =>
              { events := pre ++ [resultEv, WsEvent.summary s.content],
                llmPrompts := [content, summaryPrompt er.1], llmCalls := 2,
                execCalls := 1, dbCalls := er.2, queryHistory := hist2 }
            | .error _ =>
              { events := pre ++ [resultEv],
                llmPrompts := [content, summaryPrompt er.1], llmCalls := 2,
                execCalls := 1, dbCalls := er.2, queryHistory := hist2 }
          else
            { events := pre ++ [resultEv], llmPrompts := [content], llmCalls := 1,
              execCalls := 1, dbCalls := er.2, queryHistory := hist2 }

def boomDb : DbConn where
  query := fun _ => .error "boom"
  readOnlyQuery := fun _ => .error "boom"
  connect := .ok "db"

/-- A Model Client oracle whose first reply proposes `SELECT 1;` and
whose later replies propose `SELECT 2;`. -/
def demoReplLLM : Nat → Except String LLMResponse := fun i =>
  if i = 0 then
    .ok { content := "```sql\nSELECT 1;\n```",
          tokensUsed := { prompt := 0, completion := 0, total := 0 } }
  else
    .ok { content := "```sql\nSELECT 2;\n```",
          tokensUsed := { prompt := 0, completion := 0, total := 0 } }

-- ─── Theorems ───

/-! ### The destructive-query classifier (claims C1, C5, C9) -/

theorem dropWhile_append_spaces (sp l : List Char) (h : ∀ c ∈ sp, isSpaceChar c = true) :
    (sp ++ l).dropWhile isSpaceChar = l.dropWhile isSpaceChar := by
  induction sp with
  | nil => rfl
  | cons c cs ih =>
    rw [List.cons_append, List.dropWhile_cons, if_pos (h c (List.mem_cons_self c cs))]
    exact ih fun x hx => h x (List.mem_cons_of_mem c hx)

theorem dropWhile_head_nonspace (kw l : List Char) (hkw : kwHeadOk kw = true) :
    (kw ++ l).dropWhile isSpaceChar = kw ++ l := by
  cases kw with
  | nil => simp [kwHeadOk] at hkw
  | cons c cs =>
    have hc : isSpaceChar c = false := by simpa [kwHeadOk] using hkw
    simp [List.dropWhile_cons, hc]

theorem kwMatchHere_iff (kw s : List Char) (hkw : kwHeadOk kw = true) :
    kwMatchHere kw s = true ↔ SpecKeywordStart kw s := by
  unfold kwMatchHere SpecKeywordStart
  rw [Bool.and_eq_true, List.isPrefixOf_iff_prefix]
  constructor
  · rintro ⟨⟨rest, hrest⟩, hb⟩
    refine ⟨s.takeWhile isSpaceChar, rest, ?_, fun c hc => List.mem_takeWhile_imp hc, ?_⟩
    · conv_lhs => rw [← List.takeWhile_append_dropWhile isSpaceChar s, ← hrest]
      rw [List.append_assoc]
    · rw [← hrest, List.drop_left] at hb
      exact hb
  · rintro ⟨sp, rest, hs, hsp, hb⟩
    subst hs
    rw [List.append_assoc, dropWhile_append_spaces sp _ hsp,
      dropWhile_head_nonspace kw rest hkw]
    exact ⟨⟨rest, rfl⟩, by rw [List.drop_left]; exact hb⟩

theorem kwMatchAfterSemi_iff (kw s : List Char) :
    kwMatchAfterSemi kw s = true ↔
      ∃ a b, s = a ++ ';' :: b ∧ kwMatchHere kw b = true := by
  induction s with
  | nil => simp [kwMatchAfterSemi]
  | cons c rest ih =>
    rw [kwMatchAfterSemi, Bool.or_eq_true, Bool.and_eq_true, ih]
    constructor
    · rintro (⟨hc, hm⟩ | ⟨a, b, hab, hm⟩)
      · refine ⟨[], rest, ?_, hm⟩
        have : c = ';' := by simpa [beq_iff_eq] using hc
        simp [this]
      · exact ⟨c :: a, b, by rw [hab]; rfl, hm⟩
    · rintro ⟨a, b, hab, hm⟩
      cases a with
      | nil =>
        simp only [List.nil_append, List.cons.injEq] at hab
        obtain ⟨hc, hb⟩ := hab
        exact Or.inl ⟨by simp [hc], hb ▸ hm⟩
      | cons x a2 =>
        simp only [List.cons_append, List.cons.injEq] at hab
        obtain ⟨hc, hb⟩ := hab
        exact Or.inr ⟨a2, b, hb, hm⟩

theorem regexTestDestructive_iff (kw s : List Char) (hkw : kwHeadOk kw = true) :
    regexTestDestructive kw s = true ↔
      SpecKeywordStart kw s ∨ SpecKeywordAfterSemi kw s := by
  unfold regexTestDestructive
  rw [Bool.or_eq_true, kwMatchHere_iff kw s hkw, kwMatchAfterSemi_iff]
  refine or_congr Iff.rfl ?_
  constructor
  · rintro ⟨a, b, hab, hm⟩
    obtain ⟨sp, rest, hb, hsp, hbd⟩ := (kwMatchHere_iff kw b hkw).mp hm
    exact ⟨a, sp, rest, by rw [hab, hb], hsp, hbd⟩
  · rintro ⟨a, sp, rest, hs, hsp, hbd⟩
    exact ⟨a, sp ++ kw ++ rest, hs, (kwMatchHere_iff kw _ hkw).mpr ⟨sp, rest, rfl, hsp, hbd⟩⟩

theorem destructive_keywords_head_ok :
    ∀ kw ∈ DESTRUCTIVE_KEYWORDS, kwHeadOk kw = true := by decide

theorem isDestructiveQuery_characterization :
    (∀ sql : String, QueryExecutor.isDestructiveQuery sql = true ↔ DestructiveSpec sql) ∧
    QueryExecutor.isDestructiveQuery ("INSERT INTO x VALUES (1)") = true ∧
    QueryExecutor.isDestructiveQuery ("-- comment\nDELETE FROM x") = true ∧
    QueryExecutor.isDestructiveQuery ("SELECT * FROM x WHERE note = \x27DROP it\x27") = false := by
  refine ⟨fun sql => ?_, by decide, by decide, by decide⟩
  unfold QueryExecutor.isDestructiveQuery DestructiveSpec
  rw [List.any_eq_true]
  constructor
  · rintro ⟨kw, hkw, ht⟩
    exact ⟨kw, hkw,
      (regexTestDestructive_iff kw _ (destructive_keywords_head_ok kw hkw)).mp ht⟩
  · rintro ⟨kw, hkw, h⟩
    exact ⟨kw, hkw,
      (regexTestDestructive_iff kw _ (destructive_keywords_head_ok kw hkw)).mpr h⟩

theorem isDestructiveQuery_characterization_witness :
    QueryExecutor.isDestructiveQuery ("SELECT 1; DROP TABLE x") = true :=
  (isDestructiveQuery_characterization.1 ("SELECT 1; DROP TABLE x")).mpr
    ⟨("DROP").data, by decide,
      Or.inr ⟨("SELECT 1").data, (" ").data, (" TABLE X").data, by decide, by decide, by decide⟩⟩

theorem execute_readonly_blocks_destructive (db : DbConn) (sql : String)
    (hd : QueryExecutor.isDestructiveQuery sql = true) :
    (QueryExecutor.execute db true sql).1.error = some READ_ONLY_BLOCK_MESSAGE ∧
    (QueryExecutor.execute db true sql).1.rows = [] ∧
    (QueryExecutor.execute db true sql).1.rowCount = 0 ∧
    (QueryExecutor.execute db true sql).1.duration = 0 ∧
    (QueryExecutor.execute db true sql).2 = [] := by
  simp [QueryExecutor.execute, hd]

theorem execute_readonly_blocks_destructive_witness :
    (QueryExecutor.execute trivialDb true ("DROP TABLE x")).1.error =
        some READ_ONLY_BLOCK_MESSAGE ∧
    (QueryExecutor.execute trivialDb true ("DROP TABLE x")).1.rows = [] ∧
    (QueryExecutor.execute trivialDb true ("DROP TABLE x")).1.rowCount = 0 ∧
    (QueryExecutor.execute trivialDb true ("DROP TABLE x")).1.duration = 0 ∧
    (QueryExecutor.execute trivialDb true ("DROP TABLE x")).2 = [] :=
  execute_readonly_blocks_destructive trivialDb ("DROP TABLE x") (by decide)

theorem kwMatchAfterSemi_eq_false_of_no_semi (kw s : List Char) (h : (';') ∉ s) :
    kwMatchAfterSemi kw s = false := by
  induction s with
  | nil => rfl
  | cons c rest ih =>
    rw [kwMatchAfterSemi]
    have hc : (c == ';') = false := by
      simp only [beq_eq_false_iff_ne, ne_eq]
      intro hcc
      exact h (hcc ▸ List.mem_cons_self c rest)
    rw [hc, Bool.false_and, Bool.false_or]
    exact ih fun hm => h (List.mem_cons_of_mem c hm)

theorem nonleading_destructive_not_blocked (db : DbConn) (sql : String)
    (hstart : ∀ kw ∈ DESTRUCTIVE_KEYWORDS, kwMatchHere kw (cleanedSQL sql) = false)
    (hsemi : (';') ∉ cleanedSQL sql) :
    QueryExecutor.isDestructiveQuery sql = false ∧
    (QueryExecutor.execute db true sql).2 = [DbCall.readOnlyQuery sql] := by
  have hfalse : QueryExecutor.isDestructiveQuery sql = false := by
    unfold QueryExecutor.isDestructiveQuery
    rw [List.any_eq_false]
    intro kw hkw
    unfold regexTestDestructive
    rw [hstart kw hkw, kwMatchAfterSemi_eq_false_of_no_semi kw _ hsemi]
    simp
  refine ⟨hfalse, ?_⟩
  unfold QueryExecutor.execute
  rw [hfalse]
  cases db.readOnlyQuery sql <;> simp

theorem nonleading_destructive_not_blocked_witness :
    QueryExecutor.isDestructiveQuery ("SELECT 1\nDROP TABLE x") = false ∧
    (QueryExecutor.execute trivialDb true ("SELECT 1\nDROP TABLE x")).2 =
      [DbCall.readOnlyQuery ("SELECT 1\nDROP TABLE x")] :=
  nonleading_destructive_not_blocked trivialDb ("SELECT 1\nDROP TABLE x")
    (by decide) (by decide)

/-! ### SQL extraction (claim C6) -/

/-- Claim C6 (evaluation): the two specified examples hold, but the
fallback line scan does not stop at the first blank line: it
accumulates every remaining line, because the blank-line branch of the
scan pushes the empty line and the `break` branch is unreachable. -/
theorem extractSQL_eval :
    QueryExecutor.extractSQL ("```sql\nSELECT 1;\n```") = some ("SELECT 1;") ∧
    QueryExecutor.extractSQL ("no sql here") = none ∧
    QueryExecutor.extractSQL ("SELECT 1\n\nnot sql anymore") =
      some ("SELECT 1\n\nnot sql anymore") ∧
    some ("SELECT 1\n\nnot sql anymore") ≠ some ("SELECT 1") := by
  refine ⟨by decide, by decide, by decide, by decide⟩

/-! ### The streaming SSE parser (claim C8) -/

theorem ssePartTextOpt_rel (parts : List SSEContentPart) (o : Option String) (s c : String)
    (h : s = o.getD c) :
    parts.foldl sseCompletedFoldPart s = (parts.foldl ssePartTextOpt o).getD c := by
  induction parts generalizing o s with
  | nil => simpa using h
  | cons p ps ih =>
    simp only [List.foldl_cons]
    apply ih
    unfold sseCompletedFoldPart ssePartTextOpt
    split_ifs with ht
    · cases p.text <;> simp [h]
    · exact h

theorem sseItemTextOpt_rel (items : List SSEOutputItem) (o : Option String) (s c : String)
    (h : s = o.getD c) :
    items.foldl sseCompletedFoldItem s = (items.foldl sseItemTextOpt o).getD c := by
  induction items generalizing o s with
  | nil => simpa using h
  | cons it its ih =>
    simp only [List.foldl_cons]
    apply ih
    unfold sseCompletedFoldItem sseItemTextOpt
    split_ifs with ht
    · cases it.content with
      | none => exact h
      | some parts => exact ssePartTextOpt_rel parts o s c h
    · exact h

theorem sseEventContent_getD (c : String) (e : SSEEvent) :
    sseEventContent c e = (sseEventTextOpt e).getD c := by
  obtain ⟨ty, resp, del⟩ := e
  cases resp with
  | none => rfl
  | some r =>
    obtain ⟨out, us⟩ := r
    cases out with
    | none => rfl
    | some items => exact sseItemTextOpt_rel items none c c rfl

theorem firstPass_content_eq (lines : List SSELine) (c : String) (u : SSEUsageTriple) :
    (lines.foldl sseProcessLine (c, u)).1 =
      (sseCompletedEventsOf lines).foldl sseEventContent c := by
  induction lines generalizing c u with
  | nil => rfl
  | cons l rest ih =>
    cases l with
    | other => simp [sseCompletedEventsOf, List.filterMap_cons, sseProcessLine, ih]
    | data oe =>
      cases oe with
      | none => simp [sseCompletedEventsOf, List.filterMap_cons, sseProcessLine, ih]
      | some e =>
        by_cases hc : sseIsCompletedType e = true
        · simp only [sseCompletedEventsOf, List.filterMap_cons, hc, if_pos,
            List.foldl_cons, sseProcessLine, List.foldl_cons]
          rw [ih]
          rfl
        · simp only [Bool.not_eq_true] at hc
          simp [sseCompletedEventsOf, List.filterMap_cons, hc, sseProcessLine, ih]

theorem sseEvents_all_empty (evs : List SSEEvent)
    (h : ∀ e ∈ evs, sseEventTextOpt e = none ∨ sseEventTextOpt e = some "") :
    evs.foldl sseEventContent "" = "" := by
  induction evs with
  | nil => rfl
  | cons e es ih =>
    simp only [List.foldl_cons]
    have he : sseEventContent "" e = "" := by
      rw [sseEventContent_getD]
      rcases h e (List.mem_cons_self e es) with h1 | h1 <;> simp [h1]
    rw [he]
    exact ih fun x hx => h x (List.mem_cons_of_mem e hx)

/-- Claim C8. -/
theorem extractTextFromSSE_authoritative (lines : List SSELine) (e : SSEEvent) (t : String) :
    (sseCompletedEventsOf lines = [e] → sseEventTextOpt e = some t → t ≠ "" →
      (extractTextFromSSE lines).1 = t) ∧
    ((∀ e2 ∈ sseCompletedEventsOf lines,
        sseEventTextOpt e2 = none ∨ sseEventTextOpt e2 = some "") →
      (extractTextFromSSE lines).1 = sseDeltaConcat lines) := by
  constructor
  · intro h1 h2 h3
    unfold extractTextFromSSE
    have hc : (lines.foldl sseProcessLine ("", { input := 0, output := 0, total := 0 })).1 = t := by
      rw [firstPass_content_eq, h1]
      simp [sseEventContent_getD, h2]
    simp only [hc, if_neg h3]
  · intro h
    unfold extractTextFromSSE
    have hc : (lines.foldl sseProcessLine ("", { input := 0, output := 0, total := 0 })).1 = "" := by
      rw [firstPass_content_eq]
      exact sseEvents_all_empty _ h
    simp [hc]

theorem extractTextFromSSE_authoritative_witness :
    (extractTextFromSSE demoSSELines).1 = "Final" :=
  (extractTextFromSSE_authoritative demoSSELines demoCompletedEvent "Final").1
    (by decide) (by decide) (by decide)

/-! ### Conversation history (claims C3 and C10) -/

theorem trimHistory_length_le (h : List LLMMessage) :
    (LLMClient.trimHistory h).length ≤ MAX_HISTORY_MESSAGES := by
  unfold LLMClient.trimHistory
  split_ifs with hl
  · simp only [List.length_drop]
    omega
  · omega

theorem trimHistory_concat_getLast (l : List LLMMessage) (m : LLMMessage) :
    (LLMClient.trimHistory (l ++ [m])).getLast? = some m := by
  unfold LLMClient.trimHistory
  split_ifs with hl
  · rw [List.drop_append_of_le_length
      (by simp only [List.length_append, List.length_singleton,
            MAX_HISTORY_MESSAGES] at hl ⊢; omega),
      List.getLast?_concat]
  · exact List.getLast?_concat l

theorem trimHistory_append_of_length_eq (h : List LLMMessage) (m : LLMMessage)
    (hl : h.length = MAX_HISTORY_MESSAGES) :
    LLMClient.trimHistory (h ++ [m]) = h.drop 1 ++ [m] := by
  unfold LLMClient.trimHistory
  have h20 : MAX_HISTORY_MESSAGES = 20 := rfl
  rw [List.length_append, List.length_singleton, hl, h20]
  rw [if_pos (by omega)]
  rw [List.drop_append_of_le_length (by rw [hl, h20]; omega)]

theorem doChatOpenAIAttempt_success (hist : List LLMMessage) (r : HttpResponse)
    (h : List LLMMessage) (resp : LLMResponse)
    (he : LLMClient.doChatOpenAIAttempt hist r = .success h resp) :
    h = hist ++ [{ role := .assistant, content := resp.content }] := by
  simp only [LLMClient.doChatOpenAIAttempt] at he
  repeat' split at he
  any_goals exact AttemptOutcome.noConfusion he
  injection he with h1 h2
  rw [← h1, ← h2]

theorem doChatOpenAI_ok (hist : List LLMMessage) (r1 r2 : HttpResponse)
    (h : List LLMMessage) (resp : LLMResponse)
    (he : LLMClient.doChatOpenAI hist r1 r2 = .ok (h, resp)) :
    h = hist ++ [{ role := .assistant, content := resp.content }] := by
  unfold LLMClient.doChatOpenAI at he
  cases ha : LLMClient.doChatOpenAIAttempt hist r1 with
  | retry401 =>
    rw [ha] at he
    cases hb : LLMClient.doChatOpenAIAttempt hist r2 with
    | retry401 => rw [hb] at he; simp at he
    | fail e => rw [hb] at he; simp at he
    | success hh rr =>
      rw [hb] at he
      simp only [Except.ok.injEq, Prod.mk.injEq] at he
      obtain ⟨hhh, hrr⟩ := he
      exact hhh ▸ hrr ▸ doChatOpenAIAttempt_success hist r2 hh rr hb
  | fail e => rw [ha] at he; simp at he
  | success hh rr =>
    rw [ha] at he
    simp only [Except.ok.injEq, Prod.mk.injEq] at he
    obtain ⟨hhh, hrr⟩ := he
    exact hhh ▸ hrr ▸ doChatOpenAIAttempt_success hist r1 hh rr ha

theorem chatOpenAI_eq (st : ClientState) (u : String) (r1 r2 : HttpResponse) :
    LLMClient.chatOpenAI st u r1 r2 =
      match LLMClient.doChatOpenAI
          (LLMClient.trimHistory (st.history ++ [{ role := .user, content := u }]))
          r1 r2 with
      | .ok hr => ({ st with history := hr.1 }, .ok hr.2)
      | .error e =>
        ({ st with history :=
            LLMClient.trimHistory (st.history ++ [{ role := .user, content := u }]) },
         .error e) := rfl

theorem chatOpenAI_error_char (st : ClientState) (u : String) (r1 r2 : HttpResponse)
    (e : String)
    (he : LLMClient.doChatOpenAI
        (LLMClient.trimHistory (st.history ++ [{ role := .user, content := u }]))
        r1 r2 = .error e) :
    LLMClient.chatOpenAI st u r1 r2 =
      ({ st with history :=
          LLMClient.trimHistory (st.history ++ [{ role := .user, content := u }]) },
       .error e) := by
  rw [chatOpenAI_eq, he]

theorem chatOpenAI_ok_char (st : ClientState) (u : String) (r1 r2 : HttpResponse)
    (hr : List LLMMessage × LLMResponse)
    (ho : LLMClient.doChatOpenAI
        (LLMClient.trimHistory (st.history ++ [{ role := .user, content := u }]))
        r1 r2 = .ok hr) :
    LLMClient.chatOpenAI st u r1 r2 = ({ st with history := hr.1 }, .ok hr.2) := by
  rw [chatOpenAI_eq, ho]

/-- Claim C10. -/
theorem chat_history_on_failure (st : ClientState) (u : String) (r1 r2 : HttpResponse) :
    (∀ e, (LLMClient.chatOpenAI st u r1 r2).2 = .error e →
      (LLMClient.chatOpenAI st u r1 r2).1.history =
        LLMClient.trimHistory (st.history ++ [{ role := .user, content := u }]) ∧
      (LLMClient.chatOpenAI st u r1 r2).1.history.getLast? =
        some { role := .user, content := u }) ∧
    (∀ resp, (LLMClient.chatOpenAI st u r1 r2).2 = .ok resp →
      (LLMClient.chatOpenAI st u r1 r2).1.history =
        LLMClient.trimHistory (st.history ++ [{ role := .user, content := u }]) ++
          [{ role := .assistant, content := resp.content }]) := by
  constructor
  · intro e he
    cases hd : LLMClient.doChatOpenAI
        (LLMClient.trimHistory (st.history ++ [{ role := .user, content := u }]))
        r1 r2 with
    | ok hr =>
      rw [chatOpenAI_ok_char st u r1 r2 hr hd] at he
      exact absurd he (by simp)
    | error e2 =>
      rw [chatOpenAI_error_char st u r1 r2 e2 hd]
      exact ⟨rfl, trimHistory_concat_getLast st.history _⟩
  · intro resp he
    cases hd : LLMClient.doChatOpenAI
        (LLMClient.trimHistory (st.history ++ [{ role := .user, content := u }]))
        r1 r2 with
    | error e2 =>
      rw [chatOpenAI_error_char st u r1 r2 e2 hd] at he
      exact absurd he (by simp)
    | ok hr =>
      rw [chatOpenAI_ok_char st u r1 r2 hr hd] at he ⊢
      simp only [Except.ok.injEq] at he
      exact he ▸ doChatOpenAI_ok _ r1 r2 hr.1 hr.2 hd

theorem chat_history_on_failure_witness :
    (LLMClient.chatOpenAI { history := [] } ("oi") demo429 demo429).1.history =
      LLMClient.trimHistory ([] ++ [{ role := .user, content := "oi" }]) ∧
    (LLMClient.chatOpenAI { history := [] } ("oi") demo429 demo429).1.history.getLast? =
      some { role := .user, content := "oi" } :=
  (chat_history_on_failure { history := [] } ("oi") demo429 demo429).1
    "Limite de uso atingido. Aguarde um momento e tente novamente." (by rfl)

/-- Claim C3 counterexample. -/
theorem history_exceeds_bound_after_assistant_append :
    ((LLMClient.chatOpenAI { history := demoHistory20 } ("pergunta")
        demoSuccess200 demoSuccess200).1.history).length = 21 ∧
    ¬(((LLMClient.chatOpenAI { history := demoHistory20 } ("pergunta")
        demoSuccess200 demoSuccess200).1.history).length ≤ MAX_HISTORY_MESSAGES) := by
  exact ⟨by rfl, by decide⟩

/-- Claim C3 amended. -/
theorem history_trim_amended (h : List LLMMessage) (m : LLMMessage) (u : String)
    (st : ClientState) (r1 r2 : HttpResponse) :
    (LLMClient.addToHistory h m).length ≤ MAX_HISTORY_MESSAGES ∧
    (LLMClient.trimHistory (h ++ [{ role := .user, content := u }])).length ≤
      MAX_HISTORY_MESSAGES ∧
    (h.length = MAX_HISTORY_MESSAGES →
      LLMClient.addToHistory h m = h.drop 1 ++ [m] ∧
      (LLMClient.addToHistory h m).length = MAX_HISTORY_MESSAGES) ∧
    (LLMClient.chatOpenAI st u r1 r2).1.history.length ≤ MAX_HISTORY_MESSAGES + 1 := by
  refine ⟨trimHistory_length_le _, trimHistory_length_le _, ?_, ?_⟩
  · intro hl
    have hfifo : LLMClient.addToHistory h m = h.drop 1 ++ [m] :=
      trimHistory_append_of_length_eq h m hl
    refine ⟨hfifo, ?_⟩
    rw [hfifo]
    have h20 : MAX_HISTORY_MESSAGES = 20 := rfl
    simp only [List.length_append, List.length_drop, List.length_singleton, hl, h20]
  · cases hd : LLMClient.doChatOpenAI
        (LLMClient.trimHistory (st.history ++ [{ role := .user, content := u }]))
        r1 r2 with
    | error e =>
      rw [chatOpenAI_error_char st u r1 r2 e hd]
      exact Nat.le_succ_of_le (trimHistory_length_le _)
    | ok hr =>
      rw [chatOpenAI_ok_char st u r1 r2 hr hd]
      have hh := doChatOpenAI_ok _ r1 r2 hr.1 hr.2 hd
      show hr.1.length ≤ MAX_HISTORY_MESSAGES + 1
      rw [hh, List.length_append, List.length_singleton]
      exact Nat.add_le_add_right (trimHistory_length_le _) 1

theorem history_trim_amended_witness :
    LLMClient.addToHistory demoHistory20 { role := .assistant, content := "a" } =
      demoHistory20.drop 1 ++ [{ role := .assistant, content := "a" }] ∧
    (LLMClient.addToHistory demoHistory20 { role := .assistant, content := "a" }).length =
      MAX_HISTORY_MESSAGES :=
  (history_trim_amended demoHistory20 { role := .assistant, content := "a" } ("u")
      { history := [] } demo429 demo429).2.2.1 (by decide)

/-! ### The schema-graph mirror invariant (claim C4) -/

theorem buildFKMaps_mem (rows : List FKRow)
    (m : (String → List ForeignKey) × (String → List ForeignKey)) (k : String)
    (e : ForeignKey) :
    (e ∈ (rows.foldl
        (fun m r =>
          (pushMap m.1 (tableKeyOf r.table_schema r.table_name) (mkFKInfo r),
           pushMap m.2 (tableKeyOf r.referenced_schema r.referenced_table) (mkReverseFK r)))
        m).1 k ↔
      e ∈ m.1 k ∨ ∃ r ∈ rows, tableKeyOf r.table_schema r.table_name = k ∧ e = mkFKInfo r) ∧
    (e ∈ (rows.foldl
        (fun m r =>
          (pushMap m.1 (tableKeyOf r.table_schema r.table_name) (mkFKInfo r),
           pushMap m.2 (tableKeyOf r.referenced_schema r.referenced_table) (mkReverseFK r)))
        m).2 k ↔
      e ∈ m.2 k ∨
        ∃ r ∈ rows, tableKeyOf r.referenced_schema r.referenced_table = k ∧
          e = mkReverseFK r) := by
  induction rows generalizing m with
  | nil => simp
  | cons r rs ih =>
    simp only [List.foldl_cons]
    constructor
    · rw [(ih _).1]
      simp only [pushMap]
      constructor
      · rintro (h1 | ⟨r2, hr2, hk2, he2⟩)
        · by_cases hk : k = tableKeyOf r.table_schema r.table_name
          · rw [if_pos hk] at h1
            rcases List.mem_append.mp h1 with h2 | h2
            · exact Or.inl h2
            · exact Or.inr ⟨r, List.mem_cons_self r rs, hk.symm, (List.mem_singleton.mp h2)⟩
          · rw [if_neg hk] at h1
            exact Or.inl h1
        · exact Or.inr ⟨r2, List.mem_cons_of_mem r hr2, hk2, he2⟩
      · rintro (h1 | ⟨r2, hr2, hk2, he2⟩)
        · left
          split_ifs with hk
          · exact List.mem_append_left _ h1
          · exact h1
        · rcases List.mem_cons.mp hr2 with h3 | h3
          · subst h3
            left
            rw [if_pos hk2.symm]
            exact List.mem_append_right _ (by simp [he2])
          · exact Or.inr ⟨r2, h3, hk2, he2⟩
    · rw [(ih _).2]
      simp only [pushMap]
      constructor
      · rintro (h1 | ⟨r2, hr2, hk2, he2⟩)
        · by_cases hk : k = tableKeyOf r.referenced_schema r.referenced_table
          · rw [if_pos hk] at h1
            rcases List.mem_append.mp h1 with h2 | h2
            · exact Or.inl h2
            · exact Or.inr ⟨r, List.mem_cons_self r rs, hk.symm, (List.mem_singleton.mp h2)⟩
          · rw [if_neg hk] at h1
            exact Or.inl h1
        · exact Or.inr ⟨r2, List.mem_cons_of_mem r hr2, hk2, he2⟩
      · rintro (h1 | ⟨r2, hr2, hk2, he2⟩)
        · left
          split_ifs with hk
          · exact List.mem_append_left _ h1
          · exact h1
        · rcases List.mem_cons.mp hr2 with h3 | h3
          · subst h3
            left
            rw [if_pos hk2.symm]
            exact List.mem_append_right _ (by simp [he2])
          · exact Or.inr ⟨r2, h3, hk2, he2⟩

theorem buildFKMaps_fst_mem (rows : List FKRow) (k : String) (e : ForeignKey) :
    e ∈ (buildFKMaps rows).1 k ↔
      ∃ r ∈ rows, tableKeyOf r.table_schema r.table_name = k ∧ e = mkFKInfo r := by
  unfold buildFKMaps
  rw [(buildFKMaps_mem rows _ k e).1]
  simp

theorem buildFKMaps_snd_mem (rows : List FKRow) (k : String) (e : ForeignKey) :
    e ∈ (buildFKMaps rows).2 k ↔
      ∃ r ∈ rows, tableKeyOf r.referenced_schema r.referenced_table = k ∧
        e = mkReverseFK r := by
  unfold buildFKMaps
  rw [(buildFKMaps_mem rows _ k e).2]
  simp

theorem mapDatabase_tables_mem (input : CatalogInput) (A : TableInfo)
    (hA : A ∈ (SchemaEngine.mapDatabase input).tables) :
    ∃ trow ∈ input.tableRows,
      A.schema = trow.table_schema ∧ A.name = trow.table_name ∧
      A.foreignKeys = (buildFKMaps input.fkRows).1 (tableKeyOf trow.table_schema trow.table_name) ∧
      A.referencedBy = (buildFKMaps input.fkRows).2 (tableKeyOf trow.table_schema trow.table_name) := by
  simp only [SchemaEngine.mapDatabase, List.mem_map] at hA
  obtain ⟨trow, htrow, hmk⟩ := hA
  exact ⟨trow, htrow, by rw [← hmk]; rfl, by rw [← hmk]; rfl,
    by rw [← hmk]; rfl, by rw [← hmk]; rfl⟩

/-- Claim C4. -/
theorem mapDatabase_mirror_invariant (input : CatalogInput) :
    (∀ A ∈ (SchemaEngine.mapDatabase input).tables,
     ∀ e ∈ A.foreignKeys,
     ∀ B ∈ (SchemaEngine.mapDatabase input).tables,
       B.schema = e.referencedSchema → B.name = e.referencedTable →
       ∃ e2 ∈ B.referencedBy, e2.column = e.referencedColumn ∧
         e2.referencedColumn = e.column ∧
         tableKeyOf e2.referencedSchema e2.referencedTable = tableKeyOf A.schema A.name) ∧
    (∀ B ∈ (SchemaEngine.mapDatabase input).tables,
     ∀ e ∈ B.referencedBy,
     ∀ A ∈ (SchemaEngine.mapDatabase input).tables,
       A.schema = e.referencedSchema → A.name = e.referencedTable →
       ∃ e2 ∈ A.foreignKeys, e2.column = e.referencedColumn ∧
         e2.referencedColumn = e.column ∧
         tableKeyOf e2.referencedSchema e2.referencedTable = tableKeyOf B.schema B.name) := by
  constructor
  · intro A hA e he B hB hBs hBn
    obtain ⟨ta, hta, has, han, haf, _⟩ := mapDatabase_tables_mem input A hA
    obtain ⟨tb, htb, hbs, hbn, _, hbr⟩ := mapDatabase_tables_mem input B hB
    rw [haf] at he
    obtain ⟨r, hr, hrk, hre⟩ := (buildFKMaps_fst_mem input.fkRows _ e).mp he
    refine ⟨mkReverseFK r, ?_, ?_, ?_, ?_⟩
    · rw [hbr]
      refine (buildFKMaps_snd_mem input.fkRows _ _).mpr ⟨r, hr, ?_, rfl⟩
      rw [← hbs, ← hbn, hBs, hBn, hre]
      rfl
    · rw [hre]; rfl
    · rw [hre]; rfl
    · rw [← has, ← han] at hrk
      exact hrk
  · intro B hB e he A hA hAs hAn
    obtain ⟨tb, htb, hbs, hbn, _, hbr⟩ := mapDatabase_tables_mem input B hB
    obtain ⟨ta, hta, has, han, haf, _⟩ := mapDatabase_tables_mem input A hA
    rw [hbr] at he
    obtain ⟨r, hr, hrk, hre⟩ := (buildFKMaps_snd_mem input.fkRows _ e).mp he
    refine ⟨mkFKInfo r, ?_, ?_, ?_, ?_⟩
    · rw [haf]
      refine (buildFKMaps_fst_mem input.fkRows _ _).mpr ⟨r, hr, ?_, rfl⟩
      rw [← has, ← han, hAs, hAn, hre]
      rfl
    · rw [hre]; rfl
    · rw [hre]; rfl
    · rw [← hbs, ← hbn] at hrk
      exact hrk

theorem mapDatabase_mirror_invariant_witness :
    ∃ e2 ∈ (((SchemaEngine.mapDatabase demoCatalog).tables).get ⟨1, by decide⟩).referencedBy,
      e2.column = "id" ∧ e2.referencedColumn = "user_id" ∧
      tableKeyOf e2.referencedSchema e2.referencedTable = tableKeyOf "public" "orders" := by
  have h := (mapDatabase_mirror_invariant demoCatalog).1
    ((SchemaEngine.mapDatabase demoCatalog).tables.get ⟨0, by decide⟩) (by decide)
    (mkFKInfo demoFKRow) (by decide)
    ((SchemaEngine.mapDatabase demoCatalog).tables.get ⟨1, by decide⟩) (by decide)
    (by decide) (by decide)
  simpa using h

/-! ### Related-table traversal safety (claim C7) -/

theorem ReachWithin.mono {tm : String → Option TableInfo} {k1 k2 : String} {n m : Nat}
    (h : ReachWithin tm k1 k2 n) (hnm : n ≤ m) : ReachWithin tm k1 k2 m := by
  induction h generalizing m with
  | refl _ => exact .refl _ m
  | step t hr htm2 hadj ih =>
    cases m with
    | zero => omega
    | succ m2 => exact .step t (ih (by omega)) htm2 hadj

theorem buildTableMap_selfKey_aux (tables : List TableInfo)
    (m0 : String → Option TableInfo)
    (h0 : ∀ k t, m0 k = some t → tableSelfKey t = k) :
    ∀ k t,
      (tables.foldl (fun m t2 => fun k2 => if k2 = tableSelfKey t2 then some t2 else m k2)
        m0) k = some t → tableSelfKey t = k := by
  induction tables generalizing m0 with
  | nil => exact h0
  | cons t0 ts ih =>
    simp only [List.foldl_cons]
    apply ih
    intro k t hkt
    have hkt2 : (if k = tableSelfKey t0 then some t0 else m0 k) = some t := hkt
    by_cases hk : k = tableSelfKey t0
    · rw [if_pos hk] at hkt2
      injection hkt2 with ht
      rw [ht] at hk
      exact hk.symm
    · rw [if_neg hk] at hkt2
      exact h0 k t hkt2

theorem buildTableMap_selfKey (tables : List TableInfo) :
    ∀ k t, buildTableMap tables k = some t → tableSelfKey t = k :=
  buildTableMap_selfKey_aux tables (fun _ => none)
    (by intro k t h; exact Option.noConfusion h)

theorem bfsInv_tail (tm : String → Option TableInfo) (depth : Nat) (startKey : String)
    (k : String) (d : Nat) (qs : List (String × Nat)) (visited : List String)
    (acc : List TableInfo)
    (hinv : BfsInv tm depth startKey ((k, d) :: qs) visited acc) :
    BfsInv tm depth startKey qs visited acc := by
  obtain ⟨h1, h2, h3, h4, h5, h6⟩ := hinv
  refine ⟨h1, fun p hp => h2 p (List.mem_cons_of_mem _ hp),
    fun p hp => h3 p (List.mem_cons_of_mem _ hp), h4, ?_, h6⟩
  simp only [List.map_cons, List.cons_append] at h5
  exact h5.of_cons

theorem bfsInv_push (tm : String → Option TableInfo) (depth : Nat) (startKey : String)
    (k : String) (d : Nat) (qs : List (String × Nat)) (visited : List String)
    (acc : List TableInfo) (t : TableInfo)
    (htm : ∀ k2 t2, tm k2 = some t2 → tableSelfKey t2 = k2)
    (hinv : BfsInv tm depth startKey ((k, d) :: qs) visited acc)
    (htk : tm k = some t) (h0 : 0 < d) :
    BfsInv tm depth startKey qs visited (acc ++ [t]) := by
  obtain ⟨h1, h2, h3, h4, h5, h6⟩ := hinv
  obtain ⟨hd, hreach, hne⟩ := h2 (k, d) (List.mem_cons_self _ _)
  have hkey : tableSelfKey t = k := htm k t htk
  refine ⟨h1, fun p hp => h2 p (List.mem_cons_of_mem _ hp),
    fun p hp => h3 p (List.mem_cons_of_mem _ hp), ?_, ?_, ?_⟩
  · intro t2 ht2
    rcases List.mem_append.mp ht2 with ha | hb
    · exact h4 t2 ha
    · rw [List.mem_singleton.mp hb, hkey]
      exact ⟨hne h0, hreach.mono hd⟩
  · simp only [List.map_cons, List.cons_append] at h5
    have h5b := List.nodup_cons.mp h5
    rw [List.map_append, List.map_cons, List.map_nil, hkey, ← List.append_assoc,
      List.nodup_append]
    refine ⟨h5b.2, List.nodup_singleton k, ?_⟩
    intro x hx hxk
    rw [List.mem_singleton.mp hxk] at hx
    exact h5b.1 hx
  · intro t2 ht2
    rcases List.mem_append.mp ht2 with ha | hb
    · exact h6 t2 ha
    · rw [List.mem_singleton.mp hb, hkey]
      exact h3 (k, d) (List.mem_cons_self _ _)

theorem enqueueEdges_preserves (tm : String → Option TableInfo) (depth : Nat)
    (startKey : String) (edges : List ForeignKey) (d : Nat) (k : String) (t : TableInfo)
    (acc : List TableInfo)
    (hedges : ∀ fk ∈ edges, fkRefKey fk ∈ tableAdjKeys t)
    (hreach : ReachWithin tm startKey k d)
    (htk : tm k = some t)
    (hd : d < depth) :
    ∀ (qs : List (String × Nat)) (visited : List String),
      BfsInv tm depth startKey qs visited acc →
      BfsInv tm depth startKey (enqueueEdges edges d (qs, visited)).1
        (enqueueEdges edges d (qs, visited)).2 acc ∧
      visited ⊆ (enqueueEdges edges d (qs, visited)).2 := by
  induction edges with
  | nil =>
    intro qs visited hinv
    exact ⟨hinv, fun x hx => hx⟩
  | cons fk fks ih =>
    have hedges2 : ∀ fk2 ∈ fks, fkRefKey fk2 ∈ tableAdjKeys t :=
      fun fk2 h2 => hedges fk2 (List.mem_cons_of_mem fk h2)
    intro qs visited hinv
    by_cases hv : fkRefKey fk ∈ visited
    · have hstep : enqueueStep d (qs, visited) fk = (qs, visited) := by
        unfold enqueueStep
        rw [if_pos hv]
      show BfsInv tm depth startKey
          (enqueueEdges fks d (enqueueStep d (qs, visited) fk)).1
          (enqueueEdges fks d (enqueueStep d (qs, visited) fk)).2 acc ∧
        visited ⊆ (enqueueEdges fks d (enqueueStep d (qs, visited) fk)).2
      rw [hstep]
      exact ih hedges2 qs visited hinv
    · have hstep : enqueueStep d (qs, visited) fk =
          (qs ++ [(fkRefKey fk, d + 1)], visited ++ [fkRefKey fk]) := by
        unfold enqueueStep
        rw [if_neg hv]
      obtain ⟨h1, h2, h3, h4, h5, h6⟩ := hinv
      have hrkA : fkRefKey fk ∉ qs.map Prod.fst := by
        intro hx
        obtain ⟨p, hp, hpe⟩ := List.mem_map.mp hx
        exact hv (hpe ▸ h3 p hp)
      have hrkB : fkRefKey fk ∉ acc.map tableSelfKey := by
        intro hx
        obtain ⟨t2, ht2, hte⟩ := List.mem_map.mp hx
        exact hv (hte ▸ h6 t2 ht2)
      have hinv2 : BfsInv tm depth startKey (qs ++ [(fkRefKey fk, d + 1)])
          (visited ++ [fkRefKey fk]) acc := by
        refine ⟨List.mem_append_left _ h1, ?_, ?_, h4, ?_, ?_⟩
        · intro p hp
          rcases List.mem_append.mp hp with ha | hb
          · exact h2 p ha
          · obtain rfl := List.mem_singleton.mp hb
            refine ⟨?_, ?_, ?_⟩
            · show d + 1 ≤ depth
              omega
            · show ReachWithin tm startKey (fkRefKey fk) (d + 1)
              exact .step t hreach htk (hedges fk (List.mem_cons_self _ _))
            · intro _ heq
              have heq2 : fkRefKey fk = startKey := heq
              exact hv (by rw [heq2]; exact h1)
        · intro p hp
          rcases List.mem_append.mp hp with ha | hb
          · exact List.mem_append_left _ (h3 p ha)
          · obtain rfl := List.mem_singleton.mp hb
            exact List.mem_append_right _ (List.mem_singleton_self _)
        · rw [List.map_append, List.map_cons, List.map_nil, List.append_assoc,
            List.singleton_append, List.nodup_middle]
          exact List.nodup_cons.mpr
            ⟨fun hx => (List.mem_append.mp hx).elim hrkA hrkB, h5⟩
        · intro t2 ht2
          exact List.mem_append_left _ (h6 t2 ht2)
      show BfsInv tm depth startKey
          (enqueueEdges fks d (enqueueStep d (qs, visited) fk)).1
          (enqueueEdges fks d (enqueueStep d (qs, visited) fk)).2 acc ∧
        visited ⊆ (enqueueEdges fks d (enqueueStep d (qs, visited) fk)).2
      rw [hstep]
      obtain ⟨hiv, hsub⟩ := ih hedges2 _ _ hinv2
      exact ⟨hiv, fun x hx => hsub (List.mem_append_left _ hx)⟩

theorem bfsLoop_safety (tm : String → Option TableInfo) (depth : Nat) (startKey : String)
    (htm : ∀ k t, tm k = some t → tableSelfKey t = k) :
    ∀ (fuel : Nat) (queue : List (String × Nat)) (visited : List String)
      (acc : List TableInfo),
      BfsInv tm depth startKey queue visited acc →
      (∀ t ∈ bfsLoop tm depth fuel queue visited acc,
        tableSelfKey t ≠ startKey ∧
        ReachWithin tm startKey (tableSelfKey t) depth) ∧
      ((bfsLoop tm depth fuel queue visited acc).map tableSelfKey).Nodup := by
  intro fuel
  induction fuel with
  | zero =>
    intro queue visited acc hinv
    exact ⟨hinv.2.2.2.1, (List.nodup_append.mp hinv.2.2.2.2.1).2.1⟩
  | succ fuel ih =>
    intro queue visited acc hinv
    cases queue with
    | nil =>
      exact ⟨hinv.2.2.2.1, (List.nodup_append.mp hinv.2.2.2.2.1).2.1⟩
    | cons p qs =>
      obtain ⟨k, d⟩ := p
      obtain ⟨hdd, hreach, hne⟩ := hinv.2.1 (k, d) (List.mem_cons_self _ _)
      by_cases hdep : depth ≤ d
      · by_cases h0 : 0 < d
        · cases htk : tm k with
          | none =>
            simp only [bfsLoop, h0, htk, Option.elim, if_true, hdep]
            exact ih qs visited acc (bfsInv_tail tm depth startKey k d qs visited acc hinv)
          | some t =>
            simp only [bfsLoop, h0, htk, Option.elim, if_true, hdep]
            exact ih qs visited (acc ++ [t])
              (bfsInv_push tm depth startKey k d qs visited acc t htm hinv htk h0)
        · simp only [bfsLoop, h0, if_false, hdep, if_true]
          exact ih qs visited acc (bfsInv_tail tm depth startKey k d qs visited acc hinv)
      · have hdlt : d < depth := by omega
        cases htk : tm k with
        | none =>
          simp only [bfsLoop, htk, Option.elim, hdep, if_false]
          by_cases h0 : 0 < d
          · simp only [h0, if_true]
            exact ih qs visited acc (bfsInv_tail tm depth startKey k d qs visited acc hinv)
          · simp only [h0, if_false]
            exact ih qs visited acc (bfsInv_tail tm depth startKey k d qs visited acc hinv)
        | some t =>
          simp only [bfsLoop, htk, Option.elim, hdep, if_false]
          have hadj1 : ∀ fk ∈ t.foreignKeys, fkRefKey fk ∈ tableAdjKeys t := by
            intro fk hfk
            exact List.mem_map_of_mem fkRefKey (List.mem_append_left _ hfk)
          have hadj2 : ∀ fk ∈ t.referencedBy, fkRefKey fk ∈ tableAdjKeys t := by
            intro fk hfk
            exact List.mem_map_of_mem fkRefKey (List.mem_append_right _ hfk)
          by_cases h0 : 0 < d
          · simp only [h0, if_true]
            have hinv2 := bfsInv_push tm depth startKey k d qs visited acc t htm hinv htk h0
            have hp1 := enqueueEdges_preserves tm depth startKey t.foreignKeys d k t
              (acc ++ [t]) hadj1 hreach htk hdlt qs visited hinv2
            have hp2 := enqueueEdges_preserves tm depth startKey t.referencedBy d k t
              (acc ++ [t]) hadj2 hreach htk hdlt
              (enqueueEdges t.foreignKeys d (qs, visited)).1
              (enqueueEdges t.foreignKeys d (qs, visited)).2 hp1.1
            exact ih _ _ _ hp2.1
          · simp only [h0, if_false]
            have hinv2 := bfsInv_tail tm depth startKey k d qs visited acc hinv
            have hp1 := enqueueEdges_preserves tm depth startKey t.foreignKeys d k t
              acc hadj1 hreach htk hdlt qs visited hinv2
            have hp2 := enqueueEdges_preserves tm depth startKey t.referencedBy d k t
              acc hadj2 hreach htk hdlt
              (enqueueEdges t.foreignKeys d (qs, visited)).1
              (enqueueEdges t.foreignKeys d (qs, visited)).2 hp1.1
            exact ih _ _ _ hp2.1

/-- Claim C7. -/
theorem findRelatedTables_safety (sm : SchemaMap) (schemaName tableName : String)
    (depth : Nat) :
    (∀ t ∈ SchemaEngine.findRelatedTables sm schemaName tableName depth,
       ¬(t.schema = schemaName ∧ t.name = tableName)) ∧
    (SchemaEngine.findRelatedTables sm schemaName tableName depth).Nodup ∧
    (∀ t ∈ SchemaEngine.findRelatedTables sm schemaName tableName depth,
       ReachWithin (buildTableMap sm.tables) (tableKeyOf schemaName tableName)
         (tableSelfKey t) depth) := by
  have htm := buildTableMap_selfKey sm.tables
  have hinv0 : BfsInv (buildTableMap sm.tables) depth (tableKeyOf schemaName tableName)
      [(tableKeyOf schemaName tableName, 0)] [tableKeyOf schemaName tableName] [] := by
    refine ⟨List.mem_singleton_self _, ?_, ?_, by simp, by simp, by simp⟩
    · intro p hp
      obtain rfl := List.mem_singleton.mp hp
      exact ⟨Nat.zero_le _, .refl _ _, by omega⟩
    · intro p hp
      obtain rfl := List.mem_singleton.mp hp
      exact List.mem_singleton_self _
  have hmain := bfsLoop_safety (buildTableMap sm.tables) depth
    (tableKeyOf schemaName tableName) htm (bfsFuel sm)
    [(tableKeyOf schemaName tableName, 0)] [tableKeyOf schemaName tableName] [] hinv0
  refine ⟨?_, ?_, fun t ht => (hmain.1 t ht).2⟩
  · rintro t ht ⟨hs, hn⟩
    apply (hmain.1 t ht).1
    rw [tableSelfKey, hs, hn]
  · exact List.Nodup.of_map tableSelfKey hmain.2

theorem findRelatedTables_safety_witness :
    ReachWithin (buildTableMap (SchemaEngine.mapDatabase demoCatalog).tables)
      (tableKeyOf ("public") ("orders"))
      (tableSelfKey ((SchemaEngine.mapDatabase demoCatalog).tables.get ⟨1, by decide⟩)) 2 :=
  (findRelatedTables_safety (SchemaEngine.mapDatabase demoCatalog) ("public") ("orders") 2).2.2
    ((SchemaEngine.mapDatabase demoCatalog).tables.get ⟨1, by decide⟩) (by decide)

/-! ### Orchestration of the error-correction turn (claim C2) -/

/-- Claim C2 counterexample. -/
theorem ws_error_no_correction_attempt :
    (setupChatSocketOnMessage
        (fun _ => .ok { content := "```sql\nSELECT 1;\n```",
                        tokensUsed := { prompt := 0, completion := 0, total := 0 } })
        boomDb true true true true ("quantas linhas?") [] ("t0")).llmCalls = 1 ∧
    (setupChatSocketOnMessage
        (fun _ => .ok { content := "```sql\nSELECT 1;\n```",
                        tokensUsed := { prompt := 0, completion := 0, total := 0 } })
        boomDb true true true true ("quantas linhas?") [] ("t0")).events.getLast? =
      some (WsEvent.error ("Erro SQL: boom")) ∧
    (setupChatSocketOnMessage
        (fun _ => .ok { content := "```sql\nSELECT 1;\n```",
                        tokensUsed := { prompt := 0, completion := 0, total := 0 } })
        boomDb true true true true ("quantas linhas?") [] ("t0")).llmPrompts =
      [("quantas linhas?")] ∧
    (1 : Nat) ≠ 2 := by
  refine ⟨by decide, by decide, by decide, by decide⟩

/-- Claim C2 amended. -/
theorem orchestration_single_correction_amended
    (llm : Nat → Except String LLMResponse) (db : DbConn)
    (readOnly confirm : Bool) (input : String)
    (r1 r2 : LLMResponse) (sql1 sql2 e1 e2 : String) :
    (llm 0 = .ok r1 →
     QueryExecutor.extractSQL r1.content = some sql1 →
     (QueryExecutor.isDestructiveQuery sql1 && readOnly) = false →
     (QueryExecutor.isDestructiveQuery sql1 && !confirm) = false →
     (QueryExecutor.execute db readOnly sql1).1.error = some e1 →
     llm 1 = .ok r2 →
     QueryExecutor.extractSQL r2.content = some sql2 →
     (QueryExecutor.execute db readOnly sql2).1.error = some e2 →
     (ChatREPL.processInput llm db readOnly confirm input).llmCalls = 2 ∧
     (ChatREPL.processInput llm db readOnly confirm input).execCalls = 2 ∧
     (ChatREPL.processInput llm db readOnly confirm input).llmPrompts =
       [input, fixPrompt e1] ∧
     (ChatREPL.processInput llm db readOnly confirm input).events.getLast? =
       some (ReplEvent.errorText ("Erro persistente: " ++ e2))) ∧
    (∀ (wsllm : Nat → Except String LLMResponse) (r : LLMResponse)
       (sql e : String) (hist : List WsHistEntry) (now content : String),
     wsllm 0 = .ok r →
     QueryExecutor.extractSQL r.content = some sql →
     (QueryExecutor.execute db readOnly sql).1.error = some e →
     (setupChatSocketOnMessage wsllm db readOnly true true true content hist now).llmCalls = 1 ∧
     (setupChatSocketOnMessage wsllm db readOnly true true true content hist now).execCalls = 1 ∧
     (setupChatSocketOnMessage wsllm db readOnly true true true content hist now).llmPrompts =
       [content] ∧
     (setupChatSocketOnMessage wsllm db readOnly true true true content hist now).events.getLast? =
       some (WsEvent.error ("Erro SQL: " ++ e))) := by
  constructor
  · intro h0 hx1 hg1 hg2 he1 h1 hx2 he2
    simp only [ChatREPL.processInput, h0, hx1, hg1, hg2, he1, h1, hx2, he2,
      Bool.false_eq_true, if_false, List.getLast?_concat]
    exact ⟨trivial, trivial, trivial, trivial⟩
  · intro wsllm r sql e hist now content h0 hx he
    simp only [setupChatSocketOnMessage, h0, hx, he, Bool.not_true, Bool.false_eq_true,
      if_false, List.getLast?_concat]
    exact ⟨trivial, trivial, trivial, trivial⟩

theorem orchestration_single_correction_amended_witness :
    (ChatREPL.processInput demoReplLLM boomDb true true ("quantas?")).llmCalls = 2 ∧
    (ChatREPL.processInput demoReplLLM boomDb true true ("quantas?")).execCalls = 2 ∧
    (ChatREPL.processInput demoReplLLM boomDb true true ("quantas?")).llmPrompts =
      [("quantas?"), fixPrompt ("boom")] ∧
    (ChatREPL.processInput demoReplLLM boomDb true true ("quantas?")).events.getLast? =
      some (ReplEvent.errorText ("Erro persistente: boom")) :=
  (orchestration_single_correction_amended demoReplLLM boomDb true true ("quantas?")
      { content := "```sql\nSELECT 1;\n```",
        tokensUsed := { prompt := 0, completion := 0, total := 0 } }
      { content := "```sql\nSELECT 2;\n```",
        tokensUsed := { prompt := 0, completion := 0, total := 0 } }
      ("SELECT 1;") ("SELECT 2;") ("boom") ("boom")).1
    (by rfl) (by decide) (by decide) (by decide) (by decide) (by rfl)
    (by decide) (by decide)

end AgentDB
